import Mathlib

/-!
Verification of the Music Tab Finder frontend (src/frontend/app.js and its
extended GitHub-Pages variant src/unnamed/part_002) against its
natural-language specification.  The JavaScript is shallowly embedded:
DOM writes become a record of the written element texts, `localStorage`
becomes explicit list state, `fetch` outcomes become an explicit datatype,
and the JS string/number builtins the code uses (`trim`, `includes`,
`parseInt`, template literals, `btoa`/`atob`, `encodeURIComponent`/
`decodeURIComponent`, `JSON.stringify`/`JSON.parse`) are modelled over
Lean `String` / `List Nat` (Unicode code points).
-/

set_option maxHeartbeats 1600000
set_option maxRecDepth 16384

namespace MusicTabFinder

/-- Whitespace recognised by `String.prototype.trim` (the code calls
`urlInput.value.trim()`): space, tab, LF, VT, FF, CR, NBSP. -/
def jsWsChar (c : Char) : Bool :=
  c = ' ' || c = '\t' || c = '\n' || c = '\x0b' || c = '\x0c' || c = '\r' || c = ' '

/-- Model of `String.prototype.trim`: drop `jsWsChar` from both ends. -/
def jsTrim (s : String) : String :=
  String.mk (((s.data.dropWhile jsWsChar).reverse.dropWhile jsWsChar).reverse)

/-- The first list is a prefix of the second (helper for `includes`). -/
def strPrefixAt : List Char → List Char → Bool
  | [], _ => true
  | _ :: _, [] => false
  | a :: as, b :: bs => a = b && strPrefixAt as bs

/-- Model of `String.prototype.includes`: `needle` occurs somewhere in `hay`. -/
def strContainsL : List Char → List Char → Bool
  | hay, needle =>
    strPrefixAt needle hay ||
    (match hay with
     | [] => false
     | _ :: t => strContainsL t needle)

/-- `hay.includes(needle)` on Lean strings. -/
def strContains (hay needle : String) : Bool := strContainsL hay.data needle.data

/-- Fuelled helper for `natToDec` (fuel `n + 1` always suffices since the
argument strictly shrinks under division by ten). -/
def natToDecAux : Nat → Nat → List Nat
  | 0, _ => []
  | f + 1, n => if n < 10 then [48 + n] else natToDecAux f (n / 10) ++ [48 + n % 10]

/-- Decimal digits (as code points `48..57`) of a natural number, most
significant first; models JS number-to-string for the integers the app
interpolates (`tempo`) and serialises (`JSON.stringify`). -/
def natToDec (n : Nat) : List Nat :=
  natToDecAux (n + 1) n

/-- The fuel argument is irrelevant once it exceeds the value. -/
theorem natToDecAux_fuel (n : Nat) : ∀ f₁ f₂, n < f₁ → n < f₂ →
    natToDecAux f₁ n = natToDecAux f₂ n := by
  induction n using Nat.strong_induction_on with
  | _ n ih =>
    intro f₁ f₂ h₁ h₂
    match f₁, f₂ with
    | g₁ + 1, g₂ + 1 =>
      simp only [natToDecAux]
      by_cases hn : n < 10
      · simp [hn]
      · rw [if_neg hn, if_neg hn,
          ih (n / 10) (Nat.div_lt_self (by omega) (by omega)) g₁ g₂ (by omega) (by omega)]

/-- Unfolding equation of `natToDec` for one-digit numbers. -/
theorem natToDec_small (n : Nat) (h : n < 10) : natToDec n = [48 + n] := by
  simp [natToDec, natToDecAux, h]

/-- Unfolding equation of `natToDec` for multi-digit numbers. -/
theorem natToDec_step (n : Nat) (h : 10 ≤ n) :
    natToDec n = natToDec (n / 10) ++ [48 + n % 10] := by
  show natToDecAux (n + 1) n = _
  simp only [natToDecAux]
  rw [if_neg (Nat.not_lt.mpr h),
    natToDecAux_fuel (n / 10) n (n / 10 + 1) (Nat.div_lt_self (by omega) (by omega))
      (by omega)]
  rfl

/-- Decimal string of a natural number. -/
def natToStr (n : Nat) : String :=
  String.mk ((natToDec n).map (fun d => Char.ofNat d))

/-- A result object as the frontend consumes it: the fields read by
`displayResult`, `showDemoResult`, `saveToLocalHistory` and `shareSheet`. -/
structure SheetRecord where
  id : Option String
  youtube_url : Option String
  title : Option String
  output_type : String
  content : String
  tempo : Option Nat
  key : Option String
  created_at : Option String
  midi_note : Option String
deriving DecidableEq

/-- JS `o || dflt` for an optional string (absent or empty picks the default). -/
def jsOrStr (o : Option String) (dflt : String) : String :=
  match o with
  | none => dflt
  | some s => if s == "" then dflt else s

/-- JS `o || dflt` for an optional number (absent or `0` picks the default). -/
def jsOrNat (o : Option Nat) (dflt : Nat) : Nat :=
  match o with
  | none => dflt
  | some n => if n == 0 then dflt else n

/-- JS truthiness of an optional string field (`if (data.midi_note)`). -/
def truthyStr (o : Option String) : Bool :=
  match o with
  | none => false
  | some s => !(s == "")

/-- The `typeLabels` lookup in `displayResult` (part_002 lines 411–416):
unknown keys give `undefined`, which is rendered as the empty label via
`typeLabels[data.output_type] || ''`-like fallback (`|| ''` is implicit:
`textContent = undefined` renders as empty — the code writes
`typeLabels[data.output_type] || ''`). -/
def typeLabel (t : String) : String :=
  if t == "chord_sheet" then "🎤 彈唱簡譜"
  else if t == "fingerstyle_tab" then "🎸 指彈六線譜"
  else if t == "piano_sheet" then "🎹 鋼琴簡譜"
  else ""

/-- The DOM cells `displayResult` writes: the result section's hidden flag and
the text contents of the title/tempo/key/type/content/advisory elements. -/
structure DomState where
  resultHidden : Bool
  resultTitle : String
  resultTempo : String
  resultKey : String
  resultType : String
  sheetContent : String
  resultNote : String
  resultNoteHidden : Bool
deriving DecidableEq

/-- Embedding of `displayResult` (part_002 lines 403–429 = app.js 160–187).
It returns the (unmodified) input record alongside the new DOM state: the
function only reads `data`.  `scrollIntoView` is a pure visual effect and has
no modelled state. -/
def displayResultProc (data : SheetRecord) (dom : DomState) : SheetRecord × DomState :=
  (data,
   { resultHidden := false
     resultTitle := jsOrStr data.title ("未知歌曲")
     resultTempo := "♩ = " ++ natToStr (jsOrNat data.tempo 120)
     resultKey := jsOrStr data.key ("C") ++ " 大調"
     resultType := typeLabel data.output_type
     sheetContent := data.content
     resultNote :=
       match data.midi_note with
       | some s => if s == "" then dom.resultNote else s
       | none => dom.resultNote
     resultNoteHidden := !truthyStr data.midi_note })

/-- DOM effect of `displayResult`. -/
def displayResult (data : SheetRecord) (dom : DomState) : DomState :=
  (displayResultProc data dom).2

def demoChordSheet : String :=
  "速度: ♩ = 120\n" ++
  "調號: C 大調\n" ++
  "\n" ++
  " [C]          [Am]         [F]          [G]  \n" ++
  "  1   3   5    6   1·  5    4   3   2    5   -   -\n" ++
  "\n" ++
  " [C]          [G]          [Am]         [F]  \n" ++
  "  1   1   2    5,  7,  2    6,  1   3    4   3   1\n" ++
  "\n" ++
  " [F]          [G]          [C]               \n" ++
  "  4   4   5    7   2·  1    1   -   -    -   -   -\n" ++
  "\n" ++
  "※ 這是演示模式的範例簡譜。\n" ++
  "   啟動後端服務後，將從 YouTube 音訊即時產生真實樂譜。"

def demoFingerstyleTab : String :=
  "速度: ♩ = 120\n" ++
  "Tuning: Standard (EADGBE)\n" ++
  "\n" ++
  "e| -  0  -  1  -  0  -  -  3  -  1  -  0  -  -  -|\n" ++
  "B| 1  -  1  -  3  -  1  0  -  0  -  3  -  1  0  -|\n" ++
  "G| -  0  -  -  -  0  -  -  -  0  -  -  -  0  -  0|\n" ++
  "D| 2  -  2  -  -  -  2  -  0  -  0  -  -  -  2  -|\n" ++
  "A| 3  -  -  0  -  -  -  -  -  -  -  0  -  -  3  -|\n" ++
  "E| -  -  -  -  -  -  -  3  -  -  -  -  3  -  -  -|\n" ++
  "\n" ++
  "※ 這是演示模式的範例指彈譜。"

def demoPianoSheet : String :=
  "速度: ♩ = 120\n" ++
  "調號: C 大調\n" ++
  "\n" ++
  "右手（旋律）：\n" ++
  "  1   3   5   1·  6   5   3   1   4   3   2   5   1   -   -   -\n" ++
  "\n" ++
  "左手（伴奏）：\n" ++
  "  1,  5,  3,  1,  4,  1,  5,  7,  4,  1,  5,  2,  1,  -   -   -\n" ++
  "\n" ++
  "※ 這是演示模式的範例鋼琴簡譜。"

/-- `demoSheets[currentType] || demoChordSheet` from `showDemoResult`. -/
def demoSheets (t : String) : String :=
  if t == "chord_sheet" then demoChordSheet
  else if t == "fingerstyle_tab" then demoFingerstyleTab
  else if t == "piano_sheet" then demoPianoSheet
  else demoChordSheet

/-- The `demoData` object literal in `showDemoResult` (part_002 lines 477–487).
`now` stands for `Date.now()` and `iso` for `new Date().toISOString()`. -/
def demoData (url ct : String) (now : Nat) (iso : String) : SheetRecord :=
  { id := some ("demo-" ++ natToStr now)
    youtube_url := some url
    title := some ("🎵 演示範例（後端未啟動）")
    output_type := ct
    content := demoSheets ct
    tempo := some 120
    key := some ("C")
    created_at := some iso
    midi_note := some ("💡 提示：請先啟動後端服務 (cd backend && uv run main.py)，即可進行真實的 YouTube 轉譜。") }

/-- Embedding of `saveToLocalHistory` (part_002 lines 553–558): unshift the
record onto the stored list and truncate to 50 entries
(`history.length = 50`). -/
def saveToLocalHistory (record : SheetRecord) (prior : List SheetRecord) : List SheetRecord :=
  let h := record :: prior
  if 50 < h.length then h.take 50 else h

/-- The body of the POST `/api/transcribe` request built by `startTranscribe`. -/
structure TranscribeRequest where
  youtube_url : String
  output_type : String
  key_offset : Int
deriving DecidableEq

/-- Outcome of the `fetch` in `startTranscribe`: an ok response with a parsed
body, a non-ok response with its parsed `detail` field, or a thrown network
error with its message. -/
inductive FetchOutcome where
  | ok (data : SheetRecord)
  | httpErr (detail : Option String)
  | netErr (message : String)
deriving DecidableEq

/-- The mutable app state the claims mention: the DOM cells, `currentResult`,
the local-history store, the shown toasts (in order) and the transcription
requests sent (in order). -/
structure AppState where
  dom : DomState
  currentResult : Option SheetRecord
  history : List SheetRecord
  toasts : List String
  requests : List TranscribeRequest
deriving DecidableEq

/-- `'0'..'9'`. -/
def isDigitChar (c : Char) : Bool := 48 ≤ c.toNat && c.toNat ≤ 57

/-- `0-9A-Fa-f`. -/
def isHexDigitChar (c : Char) : Bool :=
  isDigitChar c || (65 ≤ c.toNat && c.toNat ≤ 70) || (97 ≤ c.toNat && c.toNat ≤ 102)

/-- Numeric value of a hex digit character. -/
def hexCharVal (c : Char) : Nat :=
  if isDigitChar c then c.toNat - 48 else if c.toNat ≤ 70 then c.toNat - 55 else c.toNat - 87

/-- Value of a nonempty decimal digit list, most significant first. -/
def decDigitsVal (l : List Char) : Nat :=
  l.foldl (fun acc c => acc * 10 + (c.toNat - 48)) 0

/-- Value of a nonempty hex digit list, most significant first. -/
def hexDigitsVal (l : List Char) : Nat :=
  l.foldl (fun acc c => acc * 16 + hexCharVal c) 0

/-- Magnitude part of `parseInt` (radix unspecified, ECMA-262): a `0x`/`0X`
prefix switches to hex, otherwise the longest decimal digit prefix is taken;
no digits at all gives `NaN` (`none`). -/
def parseIntAbs (u : List Char) : Option Nat :=
  match u with
  | '0' :: x :: rest =>
    if x = 'x' || x = 'X' then
      let ds := rest.takeWhile isHexDigitChar
      if ds.isEmpty then none else some (hexDigitsVal ds)
    else
      let ds := (('0' : Char) :: x :: rest).takeWhile isDigitChar
      if ds.isEmpty then none else some (decDigitsVal ds)
  | _ =>
    let ds := u.takeWhile isDigitChar
    if ds.isEmpty then none else some (decDigitsVal ds)

/-- Model of `parseInt(s)`: skip leading whitespace, optional sign, then the
magnitude; `none` models `NaN`. -/
def parseIntJS (s : String) : Option Int :=
  match s.data.dropWhile jsWsChar with
  | '-' :: u => (parseIntAbs u).map (fun n => -(n : Int))
  | '+' :: u => (parseIntAbs u).map (fun n => (n : Int))
  | u => (parseIntAbs u).map (fun n => (n : Int))

/-- `parseInt(document.getElementById('key-select').value) || 0` from
`startTranscribe`: `NaN` (and `0` itself, which `||` also replaces) give `0`. -/
def parseIntOrZero (s : String) : Int :=
  match parseIntJS s with
  | none => 0
  | some n => if n = 0 then 0 else n

/-- The toast message of the catch branch of `startTranscribe`
(part_002 lines 390–394). -/
def failureToast (message : String) : String :=
  if strContains message ("Failed to fetch") || strContains message ("NetworkError") then
    "⚠️ 後端未啟動，顯示演示模式"
  else
    "⚠️ " ++ message ++ "（已顯示演示模式）"

/-- `showToast(m)`: append the message to the toast log. -/
def showToastOn (s : AppState) (m : String) : AppState :=
  { s with toasts := s.toasts ++ [m] }

/-- `displayResult(d)` acting on the app state. -/
def displayOn (d : SheetRecord) (s : AppState) : AppState :=
  { s with dom := displayResult d s.dom }

/-- Embedding of `showDemoResult` (part_002 lines 432–493): build the demo
record, display it, set `currentResult`, save it to local history. -/
def showDemoResult (url ct : String) (now : Nat) (iso : String) (s : AppState) : AppState :=
  let d := demoData url ct now iso
  let s1 := displayOn d s
  let s2 := { s1 with currentResult := some d }
  { s2 with history := saveToLocalHistory d s2.history }

/-- Embedding of `startTranscribe` (part_002 lines 324–399 = app.js 76–157).
`raw` is the url input's value, `keyVal` the key selector's value, `ct` the
module-level `currentType`, `outcome` the fetch result, `now`/`iso` the clock
reads used by the demo fallback.  Button/progress animation state is purely
visual and not modelled; the two guard branches return before any of it runs. -/
def startTranscribe (raw keyVal ct : String) (outcome : FetchOutcome) (now : Nat)
    (iso : String) (s : AppState) : AppState :=
  let url := jsTrim raw
  if url == "" then showToastOn s ("請輸入 YouTube 連結")
  else if !(strContains url ("youtube.com") || strContains url ("youtu.be")) then
    showToastOn s ("請輸入有效的 YouTube 連結")
  else
    let keyOffset := parseIntOrZero keyVal
    let s1 : AppState :=
      { s with dom := { s.dom with resultHidden := true }
               requests := s.requests ++ [⟨url, ct, keyOffset⟩] }
    match outcome with
    | .ok data =>
      let s2 := displayOn data s1
      showToastOn { s2 with currentResult := some data } ("🎉 轉譜完成！")
    | .httpErr detail =>
      let message := jsOrStr detail ("轉譜失敗")
      showToastOn (showDemoResult url ct now iso s1) (failureToast message)
    | .netErr message =>
      showToastOn (showDemoResult url ct now iso s1) (failureToast message)

/-- The three enumerated `output_type` values (README / index buttons / spec). -/
def validOutputType (t : String) : Bool :=
  t == "chord_sheet" || t == "fingerstyle_tab" || t == "piano_sheet"

/-- Modelled from the spec: the backend `/api/transcribe` endpoint is not under
src/; per §7, an `output_type` outside the three enumerated values is fatal and
"rejected before any pipeline stage runs" (UnsupportedFormat).  `pipeline`
stands for the quantize→transpose→encode→render stages; rejection happens
without invoking it. -/
def specBackendTranscribe (output_type : String) (pipeline : String → SheetRecord) :
    Except String SheetRecord :=
  if validOutputType output_type then Except.ok (pipeline output_type)
  else Except.error ("UnsupportedFormat")

/-- Split a character list at newlines (for inspecting rendered sheet lines). -/
def splitNl : List Char → List (List Char)
  | [] => [[]]
  | c :: r =>
    match splitNl r with
    | [] => [[]]
    | l :: ls => if c = '\n' then [] :: l :: ls else (c :: l) :: ls

/-- Line `i` of a string (empty when out of range). -/
def lineAt (s : String) (i : Nat) : List Char :=
  (splitNl s.data).getD i []

/-! Share-link codec.  `shareSheet` (part_002 line 203) encodes
`btoa(encodeURIComponent(JSON.stringify(shareData)))` into a `#share-`
fragment; `handleHashNavigation` (line 174) decodes
`JSON.parse(decodeURIComponent(atob(hash-capture)))`.  Strings are modelled
as lists of Unicode code points (`List Nat`); well-formed JS strings (no lone
UTF-16 surrogates) are exactly the lists of scalar values. -/

/-- A Unicode scalar value: in range and not a surrogate. -/
def scalarCP (c : Nat) : Prop := c < 1114112 ∧ (c < 55296 ∨ 57343 < c)

instance (c : Nat) : Decidable (scalarCP c) := by unfold scalarCP; infer_instance

/-- Every code point of the list is a scalar value. -/
def scalarList (l : List Nat) : Prop := ∀ c ∈ l, scalarCP c

instance (l : List Nat) : Decidable (scalarList l) := by
  unfold scalarList
  infer_instance

/-- The `shareData` object literal built by `shareSheet` (lines 189–195):
title, content, tempo, key, output_type, in insertion order. -/
structure ShareData where
  title : List Nat
  content : List Nat
  tempo : Nat
  key : List Nat
  output_type : List Nat

/-- JSON value; numbers are restricted to integers, the only numbers this
application ever serialises (`tempo`, an integer BPM). -/
inductive Json where
  | null : Json
  | bool (b : Bool) : Json
  | num (n : Int) : Json
  | str (s : List Nat) : Json
  | arr (elems : List Json) : Json
  | obj (members : List (List Nat × Json)) : Json

/-- Lowercase hex digit (JSON.stringify's `\u00xx` escapes). -/
def hexLower (v : Nat) : Nat := if v < 10 then 48 + v else 87 + v

/-- Uppercase hex digit (encodeURIComponent's `%XX` escapes). -/
def hexUpper (v : Nat) : Nat := if v < 10 then 48 + v else 55 + v

/-- JSON.stringify's escaping of one string character: quote, backslash and
the control shorthands get two-character escapes, other control characters
get `\u00xx`, everything else is literal. -/
def escChar (c : Nat) : List Nat :=
  if c = 34 then [92, 34]
  else if c = 92 then [92, 92]
  else if c = 8 then [92, 98]
  else if c = 9 then [92, 116]
  else if c = 10 then [92, 110]
  else if c = 12 then [92, 102]
  else if c = 13 then [92, 114]
  else if c < 32 then [92, 117, 48, 48, hexLower (c / 16), hexLower (c % 16)]
  else [c]

/-- JSON.stringify's rendering of a string body. -/
def escStr (s : List Nat) : List Nat := (s.map escChar).flatten

/-- A JSON string literal followed by `tail`: quote, escaped body, quote,
tail. -/
def jstrN (s tail : List Nat) : List Nat := 34 :: (escStr s ++ (34 :: tail))

/-- Code points of the key `title`. -/
def keyTitle : List Nat := [116, 105, 116, 108, 101]

/-- Code points of the key `content`. -/
def keyContent : List Nat := [99, 111, 110, 116, 101, 110, 116]

/-- Code points of the key `tempo`. -/
def keyTempo : List Nat := [116, 101, 109, 112, 111]

/-- Code points of the key `key`. -/
def keyKey : List Nat := [107, 101, 121]

/-- Code points of the key `output_type`. -/
def keyOutputType : List Nat := [111, 117, 116, 112, 117, 116, 95, 116, 121, 112, 101]

/-- `JSON.stringify(shareData)`: `{"title":…,"content":…,"tempo":…,"key":…,
"output_type":…}` — the five members in insertion order, string values
escaped, no whitespace. -/
def stringifyShare (d : ShareData) : List Nat :=
  123 :: jstrN keyTitle (58 :: jstrN d.title (44 ::
    jstrN keyContent (58 :: jstrN d.content (44 ::
    jstrN keyTempo (58 :: (natToDec d.tempo ++ (44 ::
    jstrN keyKey (58 :: jstrN d.key (44 ::
    jstrN keyOutputType (58 :: jstrN d.output_type [125]))))))))))

/-- The JSON value `JSON.parse` recovers from a well-formed share payload. -/
def shareJson (d : ShareData) : Json :=
  Json.obj [(keyTitle, Json.str d.title), (keyContent, Json.str d.content),
            (keyTempo, Json.num (d.tempo : Int)), (keyKey, Json.str d.key),
            (keyOutputType, Json.str d.output_type)]

/-- JSON insignificant whitespace. -/
def jsonWs (c : Nat) : Bool := c = 32 || c = 9 || c = 10 || c = 13

/-- Skip insignificant whitespace. -/
def skipWs (l : List Nat) : List Nat := l.dropWhile jsonWs

/-- Value of one hex digit character (either case), `none` otherwise. -/
def hexVal (c : Nat) : Option Nat :=
  if 48 ≤ c ∧ c ≤ 57 then some (c - 48)
  else if 65 ≤ c ∧ c ≤ 70 then some (c - 55)
  else if 97 ≤ c ∧ c ≤ 102 then some (c - 87)
  else none

/-- One `\uXXXX` escape (possibly a surrogate pair) inside a JSON string:
the escapes denote UTF-16 code units, so a high surrogate must be followed by
an escaped low surrogate (a lone surrogate has no scalar-list representation
and is rejected). -/
def parseUEsc (r : List Nat) : Option (Nat × List Nat) :=
  match r with
  | h1 :: h2 :: h3 :: h4 :: rest2 =>
    (hexVal h1).bind fun v1 => (hexVal h2).bind fun v2 =>
    (hexVal h3).bind fun v3 => (hexVal h4).bind fun v4 =>
    let u := ((v1 * 16 + v2) * 16 + v3) * 16 + v4
    if 55296 ≤ u ∧ u ≤ 56319 then
      match rest2 with
      | e1 :: e2 :: g1 :: g2 :: g3 :: g4 :: rest3 =>
        if e1 = 92 ∧ e2 = 117 then
          (hexVal g1).bind fun w1 => (hexVal g2).bind fun w2 =>
          (hexVal g3).bind fun w3 => (hexVal g4).bind fun w4 =>
          let v := ((w1 * 16 + w2) * 16 + w3) * 16 + w4
          if 56320 ≤ v ∧ v ≤ 57343 then
            some (65536 + (u - 55296) * 1024 + (v - 56320), rest3)
          else none
        else none
      | _ => none
    else if 56320 ≤ u ∧ u ≤ 57343 then none
    else some (u, rest2)
  | _ => none

/-- One step of the JSON string-body scanner: `some (none, rest)` when the
closing quote was consumed, `some (some c, rest)` when one character was
decoded (literal or escape); unescaped control characters are invalid. -/
def strStep : List Nat → Option (Option Nat × List Nat)
  | [] => none
  | c :: rest =>
    if c = 34 then some (none, rest)
    else if c = 92 then
      match rest with
      | [] => none
      | e :: rest1 =>
        if e = 34 then some (some 34, rest1)
        else if e = 92 then some (some 92, rest1)
        else if e = 47 then some (some 47, rest1)
        else if e = 98 then some (some 8, rest1)
        else if e = 102 then some (some 12, rest1)
        else if e = 110 then some (some 10, rest1)
        else if e = 114 then some (some 13, rest1)
        else if e = 116 then some (some 9, rest1)
        else if e = 117 then (parseUEsc rest1).map (fun p => (some p.1, p.2))
        else none
    else if c < 32 then none
    else some (some c, rest)

/-- Fuelled iteration of `strStep`; each step consumes at least one input
character, so fuel `input length` suffices. -/
def parseStringAux : Nat → List Nat → Option (List Nat × List Nat)
  | 0, _ => none
  | f + 1, l =>
    (strStep l).bind fun p =>
    match p.1 with
    | none => some ([], p.2)
    | some c => (parseStringAux f p.2).map (fun q => (c :: q.1, q.2))

/-- JSON string-body parser (after the opening quote): returns the decoded
content and the input after the closing quote. -/
def parseStringBody (l : List Nat) : Option (List Nat × List Nat) :=
  parseStringAux l.length l

/-- Accumulate a run of decimal digits. -/
def parseDigits : List Nat → Nat → Nat × List Nat
  | [], acc => (acc, [])
  | c :: rest, acc =>
    if 48 ≤ c ∧ c ≤ 57 then parseDigits rest (acc * 10 + (c - 48)) else (acc, c :: rest)

/-- JSON number parser, restricted to integers: a following `.`/`e`/`E`
(a legal JSON fraction or exponent) is outside the model and rejected —
the application only ever serialises the integer `tempo`. -/
def parseNum (l : List Nat) : Option (Nat × List Nat) :=
  match l with
  | [] => none
  | c :: _ =>
    if 48 ≤ c ∧ c ≤ 57 then
      match parseDigits l 0 with
      | (n, []) => some (n, [])
      | (n, d :: r) =>
        if d = 46 ∨ d = 101 ∨ d = 69 then none else some (n, d :: r)
    else none

/-- Parse a fixed keyword (the tails of `true`/`false`/`null`). -/
def parseKeyword (kw : List Nat) (val : Json) (l : List Nat) :
    Option (Json × List Nat) :=
  if l.take kw.length = kw then some (val, l.drop kw.length) else none

/-- Body of the JSON value parser, abstracted over the (fuelled) object- and
array-member parsers. -/
def parseValueBody (pm : List Nat → Option (List (List Nat × Json) × List Nat))
    (pe : List Nat → Option (List Json × List Nat)) :
    List Nat → Option (Json × List Nat)
  | [] => none
  | c :: rest =>
    if c = 34 then (parseStringBody rest).map (fun p => (Json.str p.1, p.2))
    else if c = 123 then
      match skipWs rest with
      | [] => none
      | c' :: r =>
        if c' = 125 then some (Json.obj [], r)
        else (pm (c' :: r)).map (fun p => (Json.obj p.1, p.2))
    else if c = 91 then
      match skipWs rest with
      | [] => none
      | c' :: r =>
        if c' = 93 then some (Json.arr [], r)
        else (pe (c' :: r)).map (fun p => (Json.arr p.1, p.2))
    else if c = 45 then (parseNum rest).map (fun p => (Json.num (-(p.1 : Int)), p.2))
    else if 48 ≤ c ∧ c ≤ 57 then
      (parseNum (c :: rest)).map (fun p => (Json.num ((p.1 : Int)), p.2))
    else if c = 116 then parseKeyword [114, 117, 101] (Json.bool true) rest
    else if c = 102 then parseKeyword [97, 108, 115, 101] (Json.bool false) rest
    else if c = 110 then parseKeyword [117, 108, 108] Json.null rest
    else none

/-- Body of the object-member parser (`"key" : value`, comma-separated, closed
by `}`), abstracted over the value parser and its own recursion. -/
def parseMembersBody (pv : List Nat → Option (Json × List Nat))
    (pm : List Nat → Option (List (List Nat × Json) × List Nat)) :
    List Nat → Option (List (List Nat × Json) × List Nat)
  | [] => none
  | c :: rest =>
    if c = 34 then
      (parseStringBody rest).bind fun pk =>
      match skipWs pk.2 with
      | [] => none
      | c2 :: r2 =>
        if c2 = 58 then
          (pv (skipWs r2)).bind fun pvv =>
          match skipWs pvv.2 with
          | [] => none
          | c3 :: r3 =>
            if c3 = 44 then
              (pm (skipWs r3)).map (fun pmm => ((pk.1, pvv.1) :: pmm.1, pmm.2))
            else if c3 = 125 then some ([(pk.1, pvv.1)], r3)
            else none
        else none
    else none

/-- Body of the array-element parser, abstracted likewise. -/
def parseElemsBody (pv : List Nat → Option (Json × List Nat))
    (pe : List Nat → Option (List Json × List Nat))
    (l : List Nat) : Option (List Json × List Nat) :=
  (pv l).bind fun pvv =>
  match skipWs pvv.2 with
  | [] => none
  | c :: r =>
    if c = 44 then (pe (skipWs r)).map (fun pee => (pvv.1 :: pee.1, pee.2))
    else if c = 93 then some ([pvv.1], r)
    else none

mutual

/-- Fuelled JSON value parser (`JSON.parse`): each recursive descent consumes
input, so fuel `input length + 1` always suffices. -/
def parseValue : Nat → List Nat → Option (Json × List Nat)
  | 0, _ => none
  | f + 1, l => parseValueBody (parseMembers f) (parseElems f) l

/-- Object members: `"key" : value` separated by commas, closed by `}`. -/
def parseMembers : Nat → List Nat → Option (List (List Nat × Json) × List Nat)
  | 0, _ => none
  | f + 1, l => parseMembersBody (parseValue f) (parseMembers f) l

/-- Array elements separated by commas, closed by `]`. -/
def parseElems : Nat → List Nat → Option (List Json × List Nat)
  | 0, _ => none
  | f + 1, l => parseElemsBody (parseValue f) (parseElems f) l

end

/-- `JSON.parse`: a single value with only whitespace around it. -/
def jsonParse (s : List Nat) : Option Json :=
  match parseValue (s.length + 1) (skipWs s) with
  | some p => if skipWs p.2 = [] then some p.1 else none
  | none => none

/-- UTF-8 bytes of a scalar value (used by `encodeURIComponent`). -/
def utf8Bytes (c : Nat) : List Nat :=
  if c < 128 then [c]
  else if c < 2048 then [192 + c / 64, 128 + c % 64]
  else if c < 65536 then [224 + c / 4096, 128 + c / 64 % 64, 128 + c % 64]
  else [240 + c / 262144, 128 + c / 4096 % 64, 128 + c / 64 % 64, 128 + c % 64]

/-- Characters `encodeURIComponent` leaves unescaped:
`A-Z a-z 0-9 - _ . ! ~ * ' ( )`. -/
def uriUnreserved (c : Nat) : Bool :=
  (65 ≤ c && c ≤ 90) || (97 ≤ c && c ≤ 122) || (48 ≤ c && c ≤ 57) ||
  c = 45 || c = 95 || c = 46 || c = 33 || c = 126 || c = 42 || c = 39 ||
  c = 40 || c = 41

/-- Percent-escape of one byte, uppercase hex. -/
def pctByte (b : Nat) : List Nat := [37, hexUpper (b / 16), hexUpper (b % 16)]

/-- `encodeURIComponent` on one character. -/
def encChar (c : Nat) : List Nat :=
  if uriUnreserved c then [c] else ((utf8Bytes c).map pctByte).flatten

/-- `encodeURIComponent`. -/
def encodeURIComp (l : List Nat) : List Nat := (l.map encChar).flatten

/-- One UTF-8 continuation byte written as `%XX` (value in `128..191`). -/
def pctCont (r : List Nat) : Option (Nat × List Nat) :=
  match r with
  | c :: h3 :: h4 :: rest2 =>
    if c = 37 then
      (hexVal h3).bind fun v3 => (hexVal h4).bind fun v4 =>
      if 128 ≤ v3 * 16 + v4 ∧ v3 * 16 + v4 < 192 then some (v3 * 16 + v4, rest2)
      else none
    else none
  | _ => none

/-- The hex digits and continuation bytes after a `%`: one UTF-8 sequence,
returning the decoded code point. -/
def pctPct (r : List Nat) : Option (Nat × List Nat) :=
  match r with
  | h1 :: h2 :: rest1 =>
    (hexVal h1).bind fun v1 => (hexVal h2).bind fun v2 =>
    let b1 := v1 * 16 + v2
    if b1 < 128 then some (b1, rest1)
    else if b1 < 192 then none
    else if b1 < 224 then
      (pctCont rest1).bind fun p2 => some ((b1 - 192) * 64 + (p2.1 - 128), p2.2)
    else if b1 < 240 then
      (pctCont rest1).bind fun p2 => (pctCont p2.2).bind fun p3 =>
        some ((b1 - 224) * 4096 + (p2.1 - 128) * 64 + (p3.1 - 128), p3.2)
    else if b1 < 248 then
      (pctCont rest1).bind fun p2 => (pctCont p2.2).bind fun p3 =>
        (pctCont p3.2).bind fun p4 =>
          some ((b1 - 240) * 262144 + (p2.1 - 128) * 4096 + (p3.1 - 128) * 64 +
            (p4.1 - 128), p4.2)
    else none
  | _ => none

/-- One step of `decodeURIComponent`: a literal character passes through, a
`%` starts a UTF-8 sequence. -/
def pctStep : List Nat → Option (Nat × List Nat)
  | [] => none
  | c :: rest => if c = 37 then pctPct rest else some (c, rest)

/-- Fuelled iteration of `pctStep`; each step consumes at least one input
character, so fuel `input length` suffices. -/
def pctDecodeAux : Nat → List Nat → Option (List Nat)
  | _, [] => some []
  | 0, _ :: _ => none
  | f + 1, c :: rest =>
    (pctStep (c :: rest)).bind fun p =>
    (pctDecodeAux f p.2).map (fun t => p.1 :: t)

/-- `decodeURIComponent`: literal characters pass through, `%XX` sequences are
collected per UTF-8 length and decoded; malformed sequences throw (`none`). -/
def pctDecode (l : List Nat) : Option (List Nat) := pctDecodeAux l.length l

/-- Base64 alphabet character of a sextet. -/
def b64ch (v : Nat) : Nat :=
  if v < 26 then 65 + v
  else if v < 52 then 71 + v
  else if v < 62 then v - 4
  else if v = 62 then 43
  else 47

/-- Sextet of a base64 alphabet character (`=` is handled by the caller). -/
def b64val (c : Nat) : Option Nat :=
  if 65 ≤ c ∧ c ≤ 90 then some (c - 65)
  else if 97 ≤ c ∧ c ≤ 122 then some (c - 71)
  else if 48 ≤ c ∧ c ≤ 57 then some (c + 4)
  else if c = 43 then some 62
  else if c = 47 then some 63
  else none

/-- Base64 encoding of a byte list (with `=` padding). -/
def btoaRaw : List Nat → List Nat
  | [] => []
  | [b1] => [b64ch (b1 / 4), b64ch (b1 % 4 * 16), 61, 61]
  | [b1, b2] => [b64ch (b1 / 4), b64ch (b1 % 4 * 16 + b2 / 16), b64ch (b2 % 16 * 4), 61]
  | b1 :: b2 :: b3 :: rest =>
    b64ch (b1 / 4) :: b64ch (b1 % 4 * 16 + b2 / 16) :: b64ch (b2 % 16 * 4 + b3 / 64)
      :: b64ch (b3 % 64) :: btoaRaw rest

/-- `btoa`: throws (`none`) when a character exceeds U+00FF. -/
def btoaJS (l : List Nat) : Option (List Nat) :=
  if ∀ c ∈ l, c < 256 then some (btoaRaw l) else none

/-- `atob`: strict base64 decoding in chunks of four characters with trailing
`=` padding. -/
def atobJS : List Nat → Option (List Nat)
  | [] => some []
  | c1 :: c2 :: c3 :: c4 :: rest =>
    (b64val c1).bind fun v1 => (b64val c2).bind fun v2 =>
    (match rest with
     | [] =>
       if c3 = 61 then
         if c4 = 61 then some [v1 * 4 + v2 / 16] else none
       else
         (b64val c3).bind fun v3 =>
         if c4 = 61 then some [v1 * 4 + v2 / 16, v2 % 16 * 16 + v3 / 4]
         else
           (b64val c4).map fun v4 =>
             [v1 * 4 + v2 / 16, v2 % 16 * 16 + v3 / 4, v3 % 4 * 64 + v4]
     | _ :: _ =>
       (b64val c3).bind fun v3 => (b64val c4).bind fun v4 =>
       (atobJS rest).map fun t =>
         (v1 * 4 + v2 / 16) :: (v2 % 16 * 16 + v3 / 4) :: (v3 % 4 * 64 + v4) :: t)
  | _ => none

/-- The encoding applied by `shareSheet` (line 203):
`btoa(encodeURIComponent(JSON.stringify(shareData)))`. -/
def shareEncode (d : ShareData) : Option (List Nat) :=
  btoaJS (encodeURIComp (stringifyShare d))

/-- The decoding applied by `handleHashNavigation` (line 174):
`JSON.parse(decodeURIComponent(atob(x)))`. -/
def shareDecode (x : List Nat) : Option Json :=
  (atobJS x).bind fun t => (pctDecode t).bind fun u => jsonParse u

/-- The `#share-` fragment `shareSheet` appends to the share URL. -/
def shareFragment (e : List Nat) : List Nat := [35, 115, 104, 97, 114, 101, 45] ++ e

/-- `hash.match(/^#share-(.+)$/)`: the capture group when the hash starts with
`#share-` followed by at least one character (`.` matches no newline). -/
def extractShareFragment (h : List Nat) : Option (List Nat) :=
  match h with
  | 35 :: 115 :: 104 :: 97 :: 114 :: 101 :: 45 :: rest =>
    if rest ≠ [] ∧ 10 ∉ rest then some rest else none
  | _ => none

/-- Hex digits round-trip (lowercase writer). -/
theorem hexVal_hexLower : ∀ v < 16, hexVal (hexLower v) = some v := by decide

/-- Hex digits round-trip (uppercase writer). -/
theorem hexVal_hexUpper : ∀ v < 16, hexVal (hexUpper v) = some v := by decide

/-- Base64 sextets round-trip. -/
theorem b64val_b64ch : ∀ v < 64, b64val (b64ch v) = some v := by decide

/-- No alphabet character is the padding character. -/
theorem b64ch_ne_pad : ∀ v < 64, b64ch v ≠ 61 := by decide

/-- Every alphabet character is at least `+`. -/
theorem b64ch_ge_43 (v : Nat) : 43 ≤ b64ch v := by
  unfold b64ch
  split_ifs <;> omega

/-- Base64 output of a nonempty byte list is nonempty. -/
theorem btoaRaw_nonempty (bs : List Nat) (h : bs ≠ []) : btoaRaw bs ≠ [] := by
  match bs with
  | [] => exact absurd rfl h
  | [b1] => simp [btoaRaw]
  | [b1, b2] => simp [btoaRaw]
  | b1 :: b2 :: b3 :: rest => simp [btoaRaw]

/-- Base64 output never contains a newline. -/
theorem btoaRaw_no_nl : ∀ bs : List Nat, 10 ∉ btoaRaw bs := by
  intro bs
  induction bs using btoaRaw.induct with
  | case1 => simp [btoaRaw]
  | case2 b1 =>
    simp only [btoaRaw, List.mem_cons, List.not_mem_nil, or_false]
    have h1 := b64ch_ge_43 (b1 / 4)
    have h2 := b64ch_ge_43 (b1 % 4 * 16)
    omega
  | case3 b1 b2 =>
    simp only [btoaRaw, List.mem_cons, List.not_mem_nil, or_false]
    have h1 := b64ch_ge_43 (b1 / 4)
    have h2 := b64ch_ge_43 (b1 % 4 * 16 + b2 / 16)
    have h3 := b64ch_ge_43 (b2 % 16 * 4)
    omega
  | case4 b1 b2 b3 rest ih =>
    simp only [btoaRaw, List.mem_cons]
    have h1 := b64ch_ge_43 (b1 / 4)
    have h2 := b64ch_ge_43 (b1 % 4 * 16 + b2 / 16)
    have h3 := b64ch_ge_43 (b2 % 16 * 4 + b3 / 64)
    have h4 := b64ch_ge_43 (b3 % 64)
    intro hmem
    rcases hmem with h | h | h | h | h
    · omega
    · omega
    · omega
    · omega
    · exact ih h

/-- `atob` inverts `btoa` on byte lists. -/
theorem atobJS_btoaRaw : ∀ bs : List Nat, (∀ b ∈ bs, b < 256) →
    atobJS (btoaRaw bs) = some bs := by
  intro bs
  induction bs using btoaRaw.induct with
  | case1 => intro _; rfl
  | case2 b1 =>
    intro hb
    have h1 : b1 < 256 := hb b1 (by simp)
    show atobJS [b64ch (b1 / 4), b64ch (b1 % 4 * 16), 61, 61] = some [b1]
    simp only [atobJS, b64val_b64ch (b1 / 4) (by omega),
      b64val_b64ch (b1 % 4 * 16) (by omega), Option.some_bind, if_pos rfl]
    simp
    omega
  | case3 b1 b2 =>
    intro hb
    have h1 : b1 < 256 := hb b1 (by simp)
    have h2 : b2 < 256 := hb b2 (by simp)
    show atobJS [b64ch (b1 / 4), b64ch (b1 % 4 * 16 + b2 / 16), b64ch (b2 % 16 * 4), 61] =
      some [b1, b2]
    have hc3 : b64ch (b2 % 16 * 4) ≠ 61 := b64ch_ne_pad _ (by omega)
    simp only [atobJS, b64val_b64ch (b1 / 4) (by omega),
      b64val_b64ch (b1 % 4 * 16 + b2 / 16) (by omega),
      b64val_b64ch (b2 % 16 * 4) (by omega), Option.some_bind, if_neg hc3, if_pos rfl]
    have e1 : b1 / 4 * 4 + (b1 % 4 * 16 + b2 / 16) / 16 = b1 := by omega
    simp
    constructor <;> omega
  | case4 b1 b2 b3 rest ih =>
    intro hb
    have h1 : b1 < 256 := hb b1 (by simp)
    have h2 : b2 < 256 := hb b2 (by simp)
    have h3 : b3 < 256 := hb b3 (by simp)
    have hrest : ∀ b ∈ rest, b < 256 := fun b hm => hb b (by simp [hm])
    show atobJS (b64ch (b1 / 4) :: b64ch (b1 % 4 * 16 + b2 / 16)
      :: b64ch (b2 % 16 * 4 + b3 / 64) :: b64ch (b3 % 64) :: btoaRaw rest) =
      some (b1 :: b2 :: b3 :: rest)
    have e1 : b1 / 4 * 4 + (b1 % 4 * 16 + b2 / 16) / 16 = b1 := by omega
    have e2 : (b1 % 4 * 16 + b2 / 16) % 16 * 16 + (b2 % 16 * 4 + b3 / 64) / 4 = b2 := by
      omega
    have e3 : (b2 % 16 * 4 + b3 / 64) % 4 * 64 + b3 % 64 = b3 := by omega
    cases hbt : btoaRaw rest with
    | nil =>
      cases hre : rest with
      | nil =>
        subst hre
        simp only [atobJS, b64val_b64ch (b1 / 4) (by omega),
          b64val_b64ch (b1 % 4 * 16 + b2 / 16) (by omega),
          b64val_b64ch (b2 % 16 * 4 + b3 / 64) (by omega),
          b64val_b64ch (b3 % 64) (by omega), Option.some_bind,
          if_neg (b64ch_ne_pad (b2 % 16 * 4 + b3 / 64) (by omega)),
          if_neg (b64ch_ne_pad (b3 % 64) (by omega))]
        simp [e1, e2, e3]
      | cons r0 rs =>
        exact absurd hbt (btoaRaw_nonempty rest (by simp [hre]))
    | cons y ys =>
      simp only [atobJS, b64val_b64ch (b1 / 4) (by omega),
        b64val_b64ch (b1 % 4 * 16 + b2 / 16) (by omega),
        b64val_b64ch (b2 % 16 * 4 + b3 / 64) (by omega),
        b64val_b64ch (b3 % 64) (by omega), Option.some_bind]
      rw [← hbt, ih hrest]
      simp [e1, e2, e3]

/-- Unescaped characters are ASCII. -/
theorem uriUnreserved_lt (c : Nat) (h : uriUnreserved c = true) : c < 128 := by
  simp only [uriUnreserved, Bool.or_eq_true, Bool.and_eq_true, decide_eq_true_eq] at h
  omega

/-- The percent sign itself is escaped. -/
theorem uriUnreserved_ne_37 (c : Nat) (h : uriUnreserved c = true) : c ≠ 37 := by
  simp only [uriUnreserved, Bool.or_eq_true, Bool.and_eq_true, decide_eq_true_eq] at h
  omega

/-- UTF-8 bytes of an in-range code point are bytes. -/
theorem utf8Bytes_lt256 (c : Nat) (hc : c < 1114112) : ∀ b ∈ utf8Bytes c, b < 256 := by
  intro b hb
  unfold utf8Bytes at hb
  split_ifs at hb <;> simp at hb <;> omega

/-- `encodeURIComponent` output stays below 256 (so `btoa` accepts it). -/
theorem encodeURIComp_lt256 (l : List Nat) (hl : scalarList l) :
    ∀ x ∈ encodeURIComp l, x < 256 := by
  intro x hx
  simp only [encodeURIComp, List.mem_flatten, List.mem_map] at hx
  obtain ⟨ys, ⟨c, hcl, rfl⟩, hxy⟩ := hx
  unfold encChar at hxy
  by_cases hu : uriUnreserved c
  · rw [if_pos hu] at hxy
    simp at hxy
    have := uriUnreserved_lt c hu
    omega
  · rw [if_neg hu] at hxy
    simp only [List.mem_flatten, List.mem_map] at hxy
    obtain ⟨zs, ⟨b, hbm, rfl⟩, hxz⟩ := hxy
    have hb : b < 256 := utf8Bytes_lt256 c (hl c hcl).1 b hbm
    unfold pctByte at hxz
    simp at hxz
    rcases hxz with rfl | rfl | rfl
    · omega
    · unfold hexUpper
      split_ifs <;> omega
    · unfold hexUpper
      split_ifs <;> omega

/-- Decoding one continuation byte's escape. -/
theorem pctCont_enc (b : Nat) (h1 : 128 ≤ b) (h2 : b < 192) (r : List Nat) :
    pctCont (37 :: hexUpper (b / 16) :: hexUpper (b % 16) :: r) = some (b, r) := by
  simp only [pctCont, reduceIte,
    hexVal_hexUpper (b / 16) (by omega), hexVal_hexUpper (b % 16) (by omega),
    Option.some_bind]
  have e : b / 16 * 16 + b % 16 = b := by omega
  rw [e, if_pos (show 128 ≤ b ∧ b < 192 from ⟨h1, h2⟩)]

/-- Decoding a one-byte (ASCII) escape sequence. -/
theorem pctPct_b1 (b : Nat) (hb : b < 128) (r : List Nat) :
    pctPct (hexUpper (b / 16) :: hexUpper (b % 16) :: r) = some (b, r) := by
  simp only [pctPct, hexVal_hexUpper (b / 16) (by omega),
    hexVal_hexUpper (b % 16) (by omega), Option.some_bind]
  have e : b / 16 * 16 + b % 16 = b := by omega
  rw [e, if_pos hb]

/-- Decoding a two-byte escape sequence. -/
theorem pctPct_b2 (b1 b2 : Nat) (h1 : 192 ≤ b1) (h1' : b1 < 224)
    (h2 : 128 ≤ b2) (h2' : b2 < 192) (r : List Nat) :
    pctPct (hexUpper (b1 / 16) :: hexUpper (b1 % 16) ::
      37 :: hexUpper (b2 / 16) :: hexUpper (b2 % 16) :: r) =
      some ((b1 - 192) * 64 + (b2 - 128), r) := by
  simp only [pctPct, hexVal_hexUpper (b1 / 16) (by omega),
    hexVal_hexUpper (b1 % 16) (by omega), Option.some_bind]
  have e : b1 / 16 * 16 + b1 % 16 = b1 := by omega
  rw [e, if_neg (show ¬ b1 < 128 by omega), if_neg (show ¬ b1 < 192 by omega),
    if_pos h1', pctCont_enc b2 h2 h2' r]
  rfl

/-- Decoding a three-byte escape sequence. -/
theorem pctPct_b3 (b1 b2 b3 : Nat) (h1 : 224 ≤ b1) (h1' : b1 < 240)
    (h2 : 128 ≤ b2) (h2' : b2 < 192) (h3 : 128 ≤ b3) (h3' : b3 < 192)
    (r : List Nat) :
    pctPct (hexUpper (b1 / 16) :: hexUpper (b1 % 16) ::
      37 :: hexUpper (b2 / 16) :: hexUpper (b2 % 16) ::
      37 :: hexUpper (b3 / 16) :: hexUpper (b3 % 16) :: r) =
      some ((b1 - 224) * 4096 + (b2 - 128) * 64 + (b3 - 128), r) := by
  simp only [pctPct, hexVal_hexUpper (b1 / 16) (by omega),
    hexVal_hexUpper (b1 % 16) (by omega), Option.some_bind]
  have e : b1 / 16 * 16 + b1 % 16 = b1 := by omega
  rw [e, if_neg (show ¬ b1 < 128 by omega), if_neg (show ¬ b1 < 192 by omega),
    if_neg (show ¬ b1 < 224 by omega), if_pos h1', pctCont_enc b2 h2 h2' _]
  simp only [Option.some_bind]
  rw [pctCont_enc b3 h3 h3' r]
  rfl

/-- Decoding a four-byte escape sequence. -/
theorem pctPct_b4 (b1 b2 b3 b4 : Nat) (h1 : 240 ≤ b1) (h1' : b1 < 248)
    (h2 : 128 ≤ b2) (h2' : b2 < 192) (h3 : 128 ≤ b3) (h3' : b3 < 192)
    (h4 : 128 ≤ b4) (h4' : b4 < 192) (r : List Nat) :
    pctPct (hexUpper (b1 / 16) :: hexUpper (b1 % 16) ::
      37 :: hexUpper (b2 / 16) :: hexUpper (b2 % 16) ::
      37 :: hexUpper (b3 / 16) :: hexUpper (b3 % 16) ::
      37 :: hexUpper (b4 / 16) :: hexUpper (b4 % 16) :: r) =
      some ((b1 - 240) * 262144 + (b2 - 128) * 4096 + (b3 - 128) * 64 +
        (b4 - 128), r) := by
  simp only [pctPct, hexVal_hexUpper (b1 / 16) (by omega),
    hexVal_hexUpper (b1 % 16) (by omega), Option.some_bind]
  have e : b1 / 16 * 16 + b1 % 16 = b1 := by omega
  rw [e, if_neg (show ¬ b1 < 128 by omega), if_neg (show ¬ b1 < 192 by omega),
    if_neg (show ¬ b1 < 224 by omega), if_neg (show ¬ b1 < 240 by omega),
    if_pos h1', pctCont_enc b2 h2 h2' _]
  simp only [Option.some_bind]
  rw [pctCont_enc b3 h3 h3' _]
  simp only [Option.some_bind]
  rw [pctCont_enc b4 h4 h4' r]
  rfl

/-- One encoded character decodes back in a single step. -/
theorem pctStep_encChar (c : Nat) (hlt : c < 1114112) (rest : List Nat) :
    pctStep (encChar c ++ rest) = some (c, rest) := by
  by_cases hu : uriUnreserved c
  · have h37 : c ≠ 37 := uriUnreserved_ne_37 c hu
    simp only [encChar, if_pos hu, List.cons_append, List.nil_append, pctStep,
      if_neg h37]
  · simp only [encChar, if_neg hu]
    by_cases h1 : c < 128
    · rw [show utf8Bytes c = [c] from by rw [utf8Bytes, if_pos h1]]
      simp only [List.map_cons, List.map_nil, pctByte, List.flatten_cons,
        List.flatten_nil, List.append_nil, List.cons_append, List.nil_append]
      simp only [pctStep, reduceIte]
      rw [pctPct_b1 c h1 rest]
    · by_cases h2 : c < 2048
      · rw [show utf8Bytes c = [192 + c / 64, 128 + c % 64] from by
          rw [utf8Bytes, if_neg h1, if_pos h2]]
        simp only [List.map_cons, List.map_nil, pctByte, List.flatten_cons,
          List.flatten_nil, List.append_nil, List.cons_append, List.nil_append]
        simp only [pctStep, reduceIte]
        rw [pctPct_b2 (192 + c / 64) (128 + c % 64) (by omega) (by omega) (by omega)
            (by omega) rest]
        have e : (192 + c / 64 - 192) * 64 + (128 + c % 64 - 128) = c := by omega
        rw [e]
      · by_cases h3 : c < 65536
        · rw [show utf8Bytes c = [224 + c / 4096, 128 + c / 64 % 64, 128 + c % 64] from
            by rw [utf8Bytes, if_neg h1, if_neg h2, if_pos h3]]
          simp only [List.map_cons, List.map_nil, pctByte, List.flatten_cons,
            List.flatten_nil, List.append_nil, List.cons_append, List.nil_append]
          simp only [pctStep, reduceIte]
          rw [pctPct_b3 (224 + c / 4096) (128 + c / 64 % 64) (128 + c % 64) (by omega)
              (by omega) (by omega) (by omega) (by omega) (by omega) rest]
          have e : (224 + c / 4096 - 224) * 4096 + (128 + c / 64 % 64 - 128) * 64 +
              (128 + c % 64 - 128) = c := by omega
          rw [e]
        · rw [show utf8Bytes c =
              [240 + c / 262144, 128 + c / 4096 % 64, 128 + c / 64 % 64, 128 + c % 64]
            from by rw [utf8Bytes, if_neg h1, if_neg h2, if_neg h3]]
          simp only [List.map_cons, List.map_nil, pctByte, List.flatten_cons,
            List.flatten_nil, List.append_nil, List.cons_append, List.nil_append]
          simp only [pctStep, reduceIte]
          rw [pctPct_b4 (240 + c / 262144) (128 + c / 4096 % 64) (128 + c / 64 % 64)
              (128 + c % 64) (by omega) (by omega) (by omega) (by omega) (by omega)
              (by omega) (by omega) (by omega) rest]
          have e : (240 + c / 262144 - 240) * 262144 + (128 + c / 4096 % 64 - 128) * 4096 +
              (128 + c / 64 % 64 - 128) * 64 + (128 + c % 64 - 128) = c := by omega
          rw [e]

/-- An encoded character is at least one character long. -/
theorem encChar_ne_nil (c : Nat) : encChar c ≠ [] := by
  unfold encChar
  by_cases hu : uriUnreserved c
  · simp [hu]
  · rw [if_neg hu]
    unfold utf8Bytes
    split_ifs <;> simp [pctByte]

/-- Fuelled decoding inverts encoding given enough fuel. -/
theorem pctDecodeAux_enc : ∀ (l : List Nat) (f : Nat), scalarList l →
    (encodeURIComp l).length ≤ f → pctDecodeAux f (encodeURIComp l) = some l := by
  intro l
  induction l with
  | nil =>
    intro f _ _
    show pctDecodeAux f [] = some []
    cases f <;> rfl
  | cons c t ih =>
    intro f hl hf
    have hc : scalarCP c := hl c (by simp)
    have ht : scalarList t := fun x hx => hl x (by simp [hx])
    have henc : encodeURIComp (c :: t) = encChar c ++ encodeURIComp t := by
      simp [encodeURIComp]
    rw [henc] at hf ⊢
    cases hec : encChar c with
    | nil => exact absurd hec (encChar_ne_nil c)
    | cons e es =>
      have hlen : (encodeURIComp t).length + 1 ≤ f := by
        rw [hec] at hf
        simp only [List.length_append, List.length_cons] at hf
        omega
      obtain ⟨f', rfl⟩ : ∃ f', f = f' + 1 := ⟨f - 1, by omega⟩
      rw [List.cons_append]
      show pctDecodeAux (f' + 1) (e :: (es ++ encodeURIComp t)) = some (c :: t)
      simp only [pctDecodeAux]
      rw [show e :: (es ++ encodeURIComp t) = encChar c ++ encodeURIComp t from by
        rw [hec, List.cons_append]]
      rw [pctStep_encChar c hc.1 (encodeURIComp t), Option.some_bind,
        ih f' ht (by omega)]
      rfl

/-- `decodeURIComponent` inverts `encodeURIComponent` on scalar strings. -/
theorem pctDecode_encodeURIComp (l : List Nat) (hl : scalarList l) :
    pctDecode (encodeURIComp l) = some l :=
  pctDecodeAux_enc l (encodeURIComp l).length hl (le_refl _)

/-- An escaped character is at least one character long. -/
theorem escChar_ne_nil (c : Nat) : escChar c ≠ [] := by
  unfold escChar
  split_ifs <;> simp

/-- A `\u00xx` control escape decodes back. -/
theorem parseUEsc_control (c : Nat) (h : c < 32) (R : List Nat) :
    parseUEsc (48 :: 48 :: hexLower (c / 16) :: hexLower (c % 16) :: R) = some (c, R) := by
  simp only [parseUEsc, show hexVal 48 = some 0 from rfl,
    hexVal_hexLower (c / 16) (by omega), hexVal_hexLower (c % 16) (by omega),
    Option.some_bind]
  rw [if_neg (show ¬(55296 ≤ ((0 * 16 + 0) * 16 + c / 16) * 16 + c % 16 ∧
        ((0 * 16 + 0) * 16 + c / 16) * 16 + c % 16 ≤ 56319) by omega),
    if_neg (show ¬(56320 ≤ ((0 * 16 + 0) * 16 + c / 16) * 16 + c % 16 ∧
        ((0 * 16 + 0) * 16 + c / 16) * 16 + c % 16 ≤ 57343) by omega)]
  have e : ((0 * 16 + 0) * 16 + c / 16) * 16 + c % 16 = c := by omega
  rw [e]

/-- One escaped string character scans back in a single step. -/
theorem strStep_escChar (c : Nat) (R : List Nat) :
    strStep (escChar c ++ R) = some (some c, R) := by
  by_cases h34 : c = 34
  · subst h34
    rw [show escChar 34 = [92, 34] from rfl]
    simp [strStep]
  · by_cases h92 : c = 92
    · subst h92
      rw [show escChar 92 = [92, 92] from rfl]
      simp [strStep]
    · by_cases h8 : c = 8
      · subst h8
        rw [show escChar 8 = [92, 98] from rfl]
        simp [strStep]
      · by_cases h9 : c = 9
        · subst h9
          rw [show escChar 9 = [92, 116] from rfl]
          simp [strStep]
        · by_cases h10 : c = 10
          · subst h10
            rw [show escChar 10 = [92, 110] from rfl]
            simp [strStep]
          · by_cases h12 : c = 12
            · subst h12
              rw [show escChar 12 = [92, 102] from rfl]
              simp [strStep]
            · by_cases h13 : c = 13
              · subst h13
                rw [show escChar 13 = [92, 114] from rfl]
                simp [strStep]
              · by_cases h32 : c < 32
                · have hesc : escChar c =
                      [92, 117, 48, 48, hexLower (c / 16), hexLower (c % 16)] := by
                    unfold escChar
                    rw [if_neg h34, if_neg h92, if_neg h8, if_neg h9, if_neg h10,
                      if_neg h12, if_neg h13, if_pos h32]
                  rw [hesc]
                  simp only [List.cons_append, List.nil_append, strStep, reduceIte]
                  rw [parseUEsc_control c h32 R]
                  rfl
                · have hesc : escChar c = [c] := by
                    unfold escChar
                    rw [if_neg h34, if_neg h92, if_neg h8, if_neg h9, if_neg h10,
                      if_neg h12, if_neg h13, if_neg h32]
                  rw [hesc]
                  simp only [List.cons_append, List.nil_append, strStep]
                  rw [if_neg h34, if_neg h92, if_neg h32]

/-- Fuelled string scanning inverts escaping given enough fuel. -/
theorem parseStringAux_esc : ∀ (s : List Nat) (f : Nat) (rest : List Nat),
    (escStr s).length + 1 ≤ f →
    parseStringAux f (escStr s ++ (34 :: rest)) = some (s, rest) := by
  intro s
  induction s with
  | nil =>
    intro f rest hf
    obtain ⟨f', rfl⟩ : ∃ f', f = f' + 1 := ⟨f - 1, by omega⟩
    show parseStringAux (f' + 1) (34 :: rest) = some ([], rest)
    simp [parseStringAux, strStep]
  | cons c t ih =>
    intro f rest hf
    have hsplit : escStr (c :: t) = escChar c ++ escStr t := by simp [escStr]
    rw [hsplit] at hf ⊢
    rw [List.length_append] at hf
    have hlc : 1 ≤ (escChar c).length := by
      cases hec : escChar c with
      | nil => exact absurd hec (escChar_ne_nil c)
      | cons e es => simp
    obtain ⟨f', rfl⟩ : ∃ f', f = f' + 1 := ⟨f - 1, by omega⟩
    rw [List.append_assoc]
    simp only [parseStringAux]
    rw [strStep_escChar c (escStr t ++ (34 :: rest)), Option.some_bind]
    rw [ih f' rest (by omega)]
    rfl

/-- The string-body parser inverts `JSON.stringify`'s escaping. -/
theorem parseStringBody_esc (s rest : List Nat) :
    parseStringBody (escStr s ++ (34 :: rest)) = some (s, rest) := by
  unfold parseStringBody
  exact parseStringAux_esc s _ rest (by simp [List.length_append])

/-- The decimal writer emits at least one digit, and the first is a digit. -/
theorem natToDec_head (n : Nat) : ∃ c t, natToDec n = c :: t ∧ 48 ≤ c ∧ c ≤ 57 := by
  induction n using Nat.strong_induction_on with
  | _ n ih =>
    by_cases h : n < 10
    · exact ⟨48 + n, [], natToDec_small n h, by omega, by omega⟩
    · obtain ⟨c, t, hct, hc1, hc2⟩ := ih (n / 10) (Nat.div_lt_self (by omega) (by omega))
      refine ⟨c, t ++ [48 + n % 10], ?_, hc1, hc2⟩
      rw [natToDec_step n (by omega), hct]
      rfl

/-- Scanning the decimal digits of `n` accumulates exactly `n`. -/
theorem parseDigits_natToDec (n : Nat) : ∀ (acc : Nat) (rest : List Nat),
    parseDigits (natToDec n ++ rest) acc =
      parseDigits rest (acc * 10 ^ (natToDec n).length + n) := by
  induction n using Nat.strong_induction_on with
  | _ n ih =>
    intro acc rest
    by_cases h : n < 10
    · rw [natToDec_small n h]
      show parseDigits ((48 + n) :: rest) acc = _
      simp only [parseDigits]
      rw [if_pos (show 48 ≤ 48 + n ∧ 48 + n ≤ 57 from by omega)]
      rw [show (([48 + n] : List Nat)).length = 1 from rfl, pow_one]
      have e : acc * 10 + (48 + n - 48) = acc * 10 + n := by omega
      rw [e]
    · have h10 : 10 ≤ n := by omega
      rw [natToDec_step n h10, List.append_assoc]
      rw [ih (n / 10) (Nat.div_lt_self (by omega) (by omega)) acc ([48 + n % 10] ++ rest)]
      show parseDigits ((48 + n % 10) :: rest) _ = _
      simp only [parseDigits]
      rw [if_pos (show 48 ≤ 48 + n % 10 ∧ 48 + n % 10 ≤ 57 from by omega)]
      rw [show (natToDec (n / 10) ++ [48 + n % 10]).length =
        (natToDec (n / 10)).length + 1 from by simp]
      have e : (acc * 10 ^ (natToDec (n / 10)).length + n / 10) * 10 + (48 + n % 10 - 48) =
          acc * 10 ^ ((natToDec (n / 10)).length + 1) + n := by
        have e0 : 48 + n % 10 - 48 = n % 10 := by omega
        rw [e0, pow_succ, Nat.add_mul, Nat.mul_assoc]
        omega
      rw [e]

/-- The number parser inverts the decimal writer when the next character stops
the scan. -/
theorem parseNum_natToDec (n d : Nat) (hd : ¬(48 ≤ d ∧ d ≤ 57))
    (hd2 : ¬(d = 46 ∨ d = 101 ∨ d = 69)) (r : List Nat) :
    parseNum (natToDec n ++ (d :: r)) = some (n, d :: r) := by
  obtain ⟨c0, t0, hct, hc1, hc2⟩ := natToDec_head n
  rw [hct, List.cons_append]
  simp only [parseNum]
  rw [if_pos (show 48 ≤ c0 ∧ c0 ≤ 57 from ⟨hc1, hc2⟩)]
  rw [show c0 :: (t0 ++ (d :: r)) = natToDec n ++ (d :: r) from by
    rw [hct, List.cons_append]]
  rw [parseDigits_natToDec n 0 (d :: r)]
  simp only [parseDigits]
  rw [if_neg hd]
  simp only [Nat.zero_mul, Nat.zero_add]
  rw [if_neg hd2]

/-- Whitespace skipping is the identity on a non-whitespace head. -/
theorem skipWs_cons (c : Nat) (h : jsonWs c = false) (l : List Nat) :
    skipWs (c :: l) = c :: l := by
  simp [skipWs, List.dropWhile_cons, h]

/-- Whitespace skipping is the identity on a string literal. -/
theorem skipWs_jstrN (s t : List Nat) : skipWs (jstrN s t) = jstrN s t :=
  skipWs_cons 34 rfl _

/-- Digits are not JSON whitespace. -/
theorem jsonWs_digit (c : Nat) (h : 48 ≤ c ∧ c ≤ 57) : jsonWs c = false := by
  simp only [jsonWs, Bool.or_eq_false_iff, decide_eq_false_iff_not]
  omega

/-- The value parser on a string literal. -/
theorem parseValue_str (f : Nat) (s tail : List Nat) :
    parseValue (f + 1) (jstrN s tail) =
      (parseStringBody (escStr s ++ (34 :: tail))).map (fun p => (Json.str p.1, p.2)) := by
  show parseValueBody (parseMembers f) (parseElems f)
    (34 :: (escStr s ++ (34 :: tail))) = _
  simp only [parseValueBody, reduceIte]

/-- The value parser on a digit head. -/
theorem parseValue_digit (f : Nat) (c : Nat) (h : 48 ≤ c ∧ c ≤ 57) (rest : List Nat) :
    parseValue (f + 1) (c :: rest) =
      (parseNum (c :: rest)).map (fun p => (Json.num ((p.1 : Int)), p.2)) := by
  show parseValueBody (parseMembers f) (parseElems f) (c :: rest) = _
  simp only [parseValueBody]
  rw [if_neg (show c ≠ 34 by omega), if_neg (show c ≠ 123 by omega),
    if_neg (show c ≠ 91 by omega), if_neg (show c ≠ 45 by omega), if_pos h]

/-- The value parser on an object whose first member key follows immediately. -/
theorem parseValue_obj (f : Nat) (k t2 : List Nat) :
    parseValue (f + 1) (123 :: jstrN k t2) =
      (parseMembers f (jstrN k t2)).map (fun p => (Json.obj p.1, p.2)) := by
  show parseValueBody (parseMembers f) (parseElems f)
    (123 :: (34 :: (escStr k ++ (34 :: t2)))) = _
  simp only [parseValueBody, reduceIte]
  rw [skipWs_cons 34 rfl]
  simp only [reduceIte]
  rfl

/-- One string-valued member followed by a comma. -/
theorem parseMembers_jstrN_str (f : Nat) (k v rest : List Nat) :
    parseMembers (f + 2) (jstrN k (58 :: jstrN v (44 :: rest))) =
      (parseMembers (f + 1) (skipWs rest)).map
        (fun pm => ((k, Json.str v) :: pm.1, pm.2)) := by
  show parseMembersBody (parseValue (f + 1)) (parseMembers (f + 1))
    (34 :: (escStr k ++ (34 :: (58 :: jstrN v (44 :: rest))))) = _
  simp only [parseMembersBody, reduceIte]
  rw [parseStringBody_esc k (58 :: jstrN v (44 :: rest))]
  simp only [Option.some_bind]
  rw [skipWs_cons 58 rfl]
  simp only [reduceIte]
  rw [skipWs_jstrN v (44 :: rest), parseValue_str f v (44 :: rest),
    parseStringBody_esc v (44 :: rest)]
  simp only [Option.map_some', Option.some_bind]
  rw [skipWs_cons 44 rfl]
  simp only [reduceIte]

/-- One number-valued member followed by a comma. -/
theorem parseMembers_jstrN_num (f : Nat) (k : List Nat) (n : Nat) (rest : List Nat) :
    parseMembers (f + 2) (jstrN k (58 :: (natToDec n ++ (44 :: rest)))) =
      (parseMembers (f + 1) (skipWs rest)).map
        (fun pm => ((k, Json.num ((n : Int))) :: pm.1, pm.2)) := by
  show parseMembersBody (parseValue (f + 1)) (parseMembers (f + 1))
    (34 :: (escStr k ++ (34 :: (58 :: (natToDec n ++ (44 :: rest)))))) = _
  simp only [parseMembersBody, reduceIte]
  rw [parseStringBody_esc k (58 :: (natToDec n ++ (44 :: rest)))]
  simp only [Option.some_bind]
  rw [skipWs_cons 58 rfl]
  simp only [reduceIte]
  obtain ⟨c0, t0, hct, hc1, hc2⟩ := natToDec_head n
  rw [show natToDec n ++ (44 :: rest) = c0 :: (t0 ++ (44 :: rest)) from by
    rw [hct, List.cons_append]]
  rw [skipWs_cons c0 (jsonWs_digit c0 ⟨hc1, hc2⟩)]
  rw [parseValue_digit f c0 ⟨hc1, hc2⟩ (t0 ++ (44 :: rest))]
  rw [show c0 :: (t0 ++ (44 :: rest)) = natToDec n ++ (44 :: rest) from by
    rw [hct, List.cons_append]]
  rw [parseNum_natToDec n 44 (by omega) (by omega) rest]
  simp only [Option.map_some', Option.some_bind]
  rw [skipWs_cons 44 rfl]
  simp only [reduceIte]

/-- The final string-valued member, closed by `}`. -/
theorem parseMembers_jstrN_close (f : Nat) (k v rest : List Nat) :
    parseMembers (f + 2) (jstrN k (58 :: jstrN v (125 :: rest))) =
      some ([(k, Json.str v)], rest) := by
  show parseMembersBody (parseValue (f + 1)) (parseMembers (f + 1))
    (34 :: (escStr k ++ (34 :: (58 :: jstrN v (125 :: rest))))) = _
  simp only [parseMembersBody, reduceIte]
  rw [parseStringBody_esc k (58 :: jstrN v (125 :: rest))]
  simp only [Option.some_bind]
  rw [skipWs_cons 58 rfl]
  simp only [reduceIte]
  rw [skipWs_jstrN v (125 :: rest), parseValue_str f v (125 :: rest),
    parseStringBody_esc v (125 :: rest)]
  simp only [Option.map_some', Option.some_bind]
  rw [skipWs_cons 125 rfl]
  simp

/-- Parsing the serialised share object recovers its five members. -/
theorem parseValue_stringifyShare (f : Nat) (d : ShareData) :
    parseValue (f + 7) (stringifyShare d) = some (shareJson d, []) := by
  unfold stringifyShare
  rw [show f + 7 = (f + 6) + 1 by omega, parseValue_obj (f + 6) keyTitle _]
  rw [show f + 6 = (f + 4) + 2 by omega, parseMembers_jstrN_str (f + 4) keyTitle d.title _]
  rw [skipWs_jstrN]
  rw [show (f + 4) + 1 = (f + 3) + 2 by omega,
    parseMembers_jstrN_str (f + 3) keyContent d.content _]
  rw [skipWs_jstrN]
  rw [show (f + 3) + 1 = (f + 2) + 2 by omega,
    parseMembers_jstrN_num (f + 2) keyTempo d.tempo _]
  rw [skipWs_jstrN]
  rw [show (f + 2) + 1 = (f + 1) + 2 by omega,
    parseMembers_jstrN_str (f + 1) keyKey d.key _]
  rw [skipWs_jstrN]
  rw [show (f + 1) + 1 = f + 2 by omega,
    parseMembers_jstrN_close f keyOutputType d.output_type []]
  simp [shareJson]

/-- `JSON.parse` inverts `JSON.stringify` on the share payload. -/
theorem jsonParse_stringifyShare (d : ShareData) :
    jsonParse (stringifyShare d) = some (shareJson d) := by
  unfold jsonParse
  have hlen : 6 ≤ (stringifyShare d).length := by
    unfold stringifyShare jstrN
    simp [List.length_append]
    omega
  obtain ⟨m, hm⟩ : ∃ m, (stringifyShare d).length + 1 = m + 7 :=
    ⟨(stringifyShare d).length - 6, by omega⟩
  rw [show skipWs (stringifyShare d) = stringifyShare d from by
    unfold stringifyShare
    exact skipWs_cons 123 rfl _]
  rw [hm, parseValue_stringifyShare m d]
  simp [skipWs]

/-- Code points below the surrogate block are scalar values. -/
theorem scalarCP_of_lt (c : Nat) (h : c < 55296) : scalarCP c := ⟨by omega, Or.inl h⟩

/-- Scalar lists are closed under cons. -/
theorem scalarList_cons (c : Nat) (l : List Nat) (hc : scalarCP c) (hl : scalarList l) :
    scalarList (c :: l) := by
  intro x hx
  rcases List.mem_cons.1 hx with rfl | hx
  · exact hc
  · exact hl x hx

/-- Scalar lists are closed under append. -/
theorem scalarList_append (a b : List Nat) (ha : scalarList a) (hb : scalarList b) :
    scalarList (a ++ b) := by
  intro x hx
  rcases List.mem_append.1 hx with h | h
  · exact ha x h
  · exact hb x h

/-- Escaping preserves scalarity (escape characters are ASCII). -/
theorem scalarList_escStr (s : List Nat) (hs : scalarList s) : scalarList (escStr s) := by
  intro x hx
  simp only [escStr, List.mem_flatten, List.mem_map] at hx
  obtain ⟨ys, ⟨c, hcs, rfl⟩, hxy⟩ := hx
  have hc := hs c hcs
  unfold escChar at hxy
  split_ifs at hxy with h1 h2 h3 h4 h5 h6 h7 h8
  · simp at hxy
    rcases hxy with rfl | rfl
    all_goals exact scalarCP_of_lt _ (by omega)
  · simp at hxy
    rcases hxy with rfl | rfl
    all_goals exact scalarCP_of_lt _ (by omega)
  · simp at hxy
    rcases hxy with rfl | rfl
    all_goals exact scalarCP_of_lt _ (by omega)
  · simp at hxy
    rcases hxy with rfl | rfl
    all_goals exact scalarCP_of_lt _ (by omega)
  · simp at hxy
    rcases hxy with rfl | rfl
    all_goals exact scalarCP_of_lt _ (by omega)
  · simp at hxy
    rcases hxy with rfl | rfl
    all_goals exact scalarCP_of_lt _ (by omega)
  · simp at hxy
    rcases hxy with rfl | rfl
    all_goals exact scalarCP_of_lt _ (by omega)
  · simp at hxy
    rcases hxy with rfl | rfl | rfl | rfl | rfl | rfl
    all_goals
      exact scalarCP_of_lt _
        (by first
          | omega
          | (unfold hexLower
             split_ifs <;> omega))
  · simp at hxy
    subst hxy
    exact hc

/-- Decimal digits are scalar. -/
theorem scalarList_natToDec (n : Nat) : scalarList (natToDec n) := by
  induction n using Nat.strong_induction_on with
  | _ n ih =>
    by_cases h : n < 10
    · rw [natToDec_small n h]
      intro x hx
      simp at hx
      subst hx
      exact scalarCP_of_lt _ (by omega)
    · rw [natToDec_step n (by omega)]
      refine scalarList_append _ _ (ih (n / 10) (Nat.div_lt_self (by omega) (by omega))) ?_
      intro x hx
      simp at hx
      subst hx
      exact scalarCP_of_lt _ (by omega)

/-- A string literal with scalar body and scalar tail is scalar. -/
theorem scalarList_jstrN (s t : List Nat) (hs : scalarList s) (htl : scalarList t) :
    scalarList (jstrN s t) :=
  scalarList_cons 34 _ (by decide)
    (scalarList_append _ _ (scalarList_escStr s hs) (scalarList_cons 34 _ (by decide) htl))

/-- The serialised share payload is scalar when its string fields are. -/
theorem scalarList_stringifyShare (d : ShareData) (ht : scalarList d.title)
    (hc : scalarList d.content) (hk : scalarList d.key)
    (ho : scalarList d.output_type) : scalarList (stringifyShare d) := by
  unfold stringifyShare
  refine scalarList_cons 123 _ (by decide) ?_
  refine scalarList_jstrN _ _ (by decide) ?_
  refine scalarList_cons 58 _ (by decide) ?_
  refine scalarList_jstrN _ _ ht ?_
  refine scalarList_cons 44 _ (by decide) ?_
  refine scalarList_jstrN _ _ (by decide) ?_
  refine scalarList_cons 58 _ (by decide) ?_
  refine scalarList_jstrN _ _ hc ?_
  refine scalarList_cons 44 _ (by decide) ?_
  refine scalarList_jstrN _ _ (by decide) ?_
  refine scalarList_cons 58 _ (by decide) ?_
  refine scalarList_append _ _ (scalarList_natToDec d.tempo) ?_
  refine scalarList_cons 44 _ (by decide) ?_
  refine scalarList_jstrN _ _ (by decide) ?_
  refine scalarList_cons 58 _ (by decide) ?_
  refine scalarList_jstrN _ _ hk ?_
  refine scalarList_cons 44 _ (by decide) ?_
  refine scalarList_jstrN _ _ (by decide) ?_
  refine scalarList_cons 58 _ (by decide) ?_
  exact scalarList_jstrN _ _ ho (by decide)

/-- Encoding a nonempty string yields a nonempty string. -/
theorem encodeURIComp_ne_nil (c : Nat) (l : List Nat) : encodeURIComp (c :: l) ≠ [] := by
  have h : encodeURIComp (c :: l) = encChar c ++ encodeURIComp l := by simp [encodeURIComp]
  rw [h]
  intro hnil
  exact encChar_ne_nil c (List.append_eq_nil.1 hnil).1

/-- C8: the decoding applied by `handleHashNavigation` to a `#share-`
fragment (`JSON.parse` of `decodeURIComponent` of `atob`) is the exact
inverse of the encoding applied by `shareSheet` (`btoa` of
`encodeURIComponent` of `JSON.stringify`): for every share payload with
well-formed (scalar) string fields, encoding succeeds, the fragment's capture
group is recovered, and decoding yields exactly the JSON object with the five
fields title, content, tempo, key, output_type in order. -/
theorem share_link_round_trip (d : ShareData) (ht : scalarList d.title)
    (hc : scalarList d.content) (hk : scalarList d.key)
    (ho : scalarList d.output_type) :
    ∃ e, shareEncode d = some e ∧
      extractShareFragment (shareFragment e) = some e ∧
      shareDecode e = some (shareJson d) := by
  have hscal : scalarList (stringifyShare d) := scalarList_stringifyShare d ht hc hk ho
  have hlt : ∀ x ∈ encodeURIComp (stringifyShare d), x < 256 :=
    encodeURIComp_lt256 _ hscal
  refine ⟨btoaRaw (encodeURIComp (stringifyShare d)), ?_, ?_, ?_⟩
  · unfold shareEncode btoaJS
    rw [if_pos hlt]
  · have hne : encodeURIComp (stringifyShare d) ≠ [] := by
      unfold stringifyShare
      exact encodeURIComp_ne_nil _ _
    have hbne : btoaRaw (encodeURIComp (stringifyShare d)) ≠ [] :=
      btoaRaw_nonempty _ hne
    have hbnl : 10 ∉ btoaRaw (encodeURIComp (stringifyShare d)) := btoaRaw_no_nl _
    unfold shareFragment extractShareFragment
    simp only [List.cons_append, List.nil_append]
    rw [if_pos ⟨hbne, hbnl⟩]
  · unfold shareDecode
    rw [atobJS_btoaRaw _ hlt]
    simp only [Option.some_bind]
    rw [pctDecode_encodeURIComp _ hscal]
    simp only [Option.some_bind]
    exact jsonParse_stringifyShare d

/-- A concrete share payload (content includes a newline, exercising the
string escaping). -/
def witnessShare : ShareData :=
  { title := [104, 105], content := [108, 97, 10, 108], tempo := 120
    key := [67], output_type := [99, 104, 111, 114, 100] }

/-- C8 witness: the round trip at a concrete payload. -/
theorem share_link_round_trip_witness :
    ∃ e, shareEncode witnessShare = some e ∧
      extractShareFragment (shareFragment e) = some e ∧
      shareDecode e = some (shareJson witnessShare) :=
  share_link_round_trip witnessShare (by decide) (by decide) (by decide) (by decide)

/-- A DOM state before any result has been shown. -/
def initDom : DomState :=
  { resultHidden := true, resultTitle := "", resultTempo := "", resultKey := ""
    resultType := "", sheetContent := "", resultNote := "", resultNoteHidden := true }

/-- App state at page load. -/
def initState : AppState :=
  { dom := initDom, currentResult := none, history := [], toasts := [], requests := [] }

/-- A plain record used to instantiate witnesses. -/
def witnessRecord : SheetRecord :=
  { id := none, youtube_url := none, title := some ("song"), output_type := "chord_sheet"
    content := "demo body", tempo := some 120, key := some ("C"), created_at := none
    midi_note := some ("advisory text") }

/-- C1: `displayResult` populates the advisory element with `midi_note` and
unhides it exactly when `midi_note` is present and non-empty; otherwise the
advisory element is hidden; and the title, tempo, key, type label and sheet
content are written in every case. -/
theorem displayResult_advisory (data : SheetRecord) (dom : DomState) :
    ((displayResult data dom).resultNoteHidden = false ↔
      ∃ s, data.midi_note = some s ∧ s ≠ "") ∧
    (∀ s, data.midi_note = some s → s ≠ "" → (displayResult data dom).resultNote = s) ∧
    (∀ s, data.midi_note = some s → s ≠ "" → (displayResult data dom).resultNoteHidden = false) ∧
    (data.midi_note = none → (displayResult data dom).resultNoteHidden = true) ∧
    (displayResult data dom).resultTitle = jsOrStr data.title ("未知歌曲") ∧
    (displayResult data dom).resultTempo = "♩ = " ++ natToStr (jsOrNat data.tempo 120) ∧
    (displayResult data dom).resultKey = jsOrStr data.key ("C") ++ " 大調" ∧
    (displayResult data dom).resultType = typeLabel data.output_type ∧
    (displayResult data dom).sheetContent = data.content ∧
    (displayResult data dom).resultHidden = false := by
  cases hm : data.midi_note with
  | none =>
    simp [displayResult, displayResultProc, truthyStr, hm]
  | some s =>
    by_cases hs : s = ""
    · subst hs
      simp [displayResult, displayResultProc, truthyStr, hm]
    · have hs' : (s == "") = false := by simpa using hs
      simp [displayResult, displayResultProc, truthyStr, hm, hs']
      exact hs

/-- C1 witness: a record with a non-empty advisory note is displayed with the
advisory element visible and carrying that text. -/
theorem displayResult_advisory_witness :
    (displayResult witnessRecord initDom).resultNote = "advisory text" ∧
    (displayResult witnessRecord initDom).resultNoteHidden = false := by
  have h := displayResult_advisory witnessRecord initDom
  exact ⟨h.2.1 _ rfl (by decide), h.2.2.1 _ rfl (by decide)⟩

/-- The request message the catch branch of `startTranscribe` reports: the
`detail` of a non-ok response (`error.detail || '轉譜失敗'`) or the message of
the thrown network error; `ok` outcomes never reach the catch branch. -/
def failMessage : FetchOutcome → String
  | .ok _ => ""
  | .httpErr detail => jsOrStr detail ("轉譜失敗")
  | .netErr message => message

/-- The app state after a failing transcription request, used to refute C2 as
stated: a valid YouTube URL, a non-ok HTTP response. -/
def c2FailState : AppState :=
  startTranscribe ("https://youtube.com/watch?v=abc") ("0") ("chord_sheet")
    (FetchOutcome.httpErr (some ("InputError: empty event stream"))) 0
    ("2026-01-01T00:00:00Z") initState

/-- C2 counterexample: after a non-ok HTTP response the result section is
visible and holds the (nonempty) demo sheet — output content is displayed for
the failed request, contradicting "no partial output content is produced or
displayed". -/
theorem startTranscribe_failure_displays_output :
    c2FailState.dom.resultHidden = false ∧
    c2FailState.dom.sheetContent = demoChordSheet ∧
    demoChordSheet ≠ "" ∧
    c2FailState.history ≠ [] := by
  refine ⟨rfl, rfl, by decide, by decide⟩

/-- C2 (amended): every failing request (non-ok response or network error)
surfaces exactly one error toast, and instead of leaving the result area
empty the app falls back to the fixed demo sheet: the displayed content is
`demoSheets ct` — canned text, not output derived from the request — with the
demo record set as `currentResult` and unshifted into local history. -/
theorem startTranscribe_failure_fallback (raw keyVal ct : String) (outcome : FetchOutcome)
    (now : Nat) (iso : String) (s : AppState)
    (h1 : (jsTrim raw == "") = false)
    (h2 : (strContains (jsTrim raw) ("youtube.com") ||
           strContains (jsTrim raw) ("youtu.be")) = true)
    (hfail : ∀ d, outcome ≠ FetchOutcome.ok d) :
    (startTranscribe raw keyVal ct outcome now iso s).toasts =
      s.toasts ++ [failureToast (failMessage outcome)] ∧
    (startTranscribe raw keyVal ct outcome now iso s).dom.sheetContent = demoSheets ct ∧
    (startTranscribe raw keyVal ct outcome now iso s).currentResult =
      some (demoData (jsTrim raw) ct now iso) ∧
    (startTranscribe raw keyVal ct outcome now iso s).history =
      saveToLocalHistory (demoData (jsTrim raw) ct now iso) s.history := by
  cases outcome with
  | ok d => exact absurd rfl (hfail d)
  | httpErr detail =>
    simp [startTranscribe, h1, h2, showDemoResult, displayOn, showToastOn, failMessage,
      displayResult, displayResultProc, demoData]
  | netErr message =>
    simp [startTranscribe, h1, h2, showDemoResult, displayOn, showToastOn, failMessage,
      displayResult, displayResultProc, demoData]

/-- C2 witness: the fallback behaviour at a concrete failing request. -/
theorem startTranscribe_failure_fallback_witness :
    (startTranscribe ("https://youtu.be/xyz") ("0") ("piano_sheet")
        (FetchOutcome.netErr ("Failed to fetch")) 7 ("2026-01-02") initState).toasts =
      initState.toasts ++
        [failureToast (failMessage (FetchOutcome.netErr ("Failed to fetch")))] ∧
    (startTranscribe ("https://youtu.be/xyz") ("0") ("piano_sheet")
        (FetchOutcome.netErr ("Failed to fetch")) 7 ("2026-01-02") initState).dom.sheetContent =
      demoSheets ("piano_sheet") ∧
    (startTranscribe ("https://youtu.be/xyz") ("0") ("piano_sheet")
        (FetchOutcome.netErr ("Failed to fetch")) 7 ("2026-01-02") initState).currentResult =
      some (demoData (jsTrim ("https://youtu.be/xyz")) ("piano_sheet") 7 ("2026-01-02")) ∧
    (startTranscribe ("https://youtu.be/xyz") ("0") ("piano_sheet")
        (FetchOutcome.netErr ("Failed to fetch")) 7 ("2026-01-02") initState).history =
      saveToLocalHistory (demoData (jsTrim ("https://youtu.be/xyz")) ("piano_sheet") 7
        ("2026-01-02")) initState.history :=
  startTranscribe_failure_fallback ("https://youtu.be/xyz") ("0") ("piano_sheet")
    (FetchOutcome.netErr ("Failed to fetch")) 7 ("2026-01-02") initState
    (by decide) (by decide) (fun d h => by cases h)

/-- A record carrying an `output_type` outside the three enumerated values. -/
def c3BadRecord : SheetRecord :=
  { id := none, youtube_url := none, title := some ("X"), output_type := "guitar_pro"
    content := "SOME CONTENT", tempo := some 100, key := some ("D"), created_at := none
    midi_note := none }

/-- C3 counterexample: `guitar_pro` is not one of the three enumerated values,
yet `displayResult` renders a result for it — the result section is unhidden
and the content shown (the type label merely falls back to empty), refuting
"no result is rendered for the unknown format value". -/
theorem displayResult_renders_unknown_format :
    validOutputType ("guitar_pro") = false ∧
    (displayResult c3BadRecord initDom).resultHidden = false ∧
    (displayResult c3BadRecord initDom).sheetContent = "SOME CONTENT" ∧
    (displayResult c3BadRecord initDom).resultType = "" := by
  refine ⟨by decide, rfl, rfl, by decide⟩

/-- An unknown `output_type` makes the `typeLabels` lookup fall through to the
empty label. -/
theorem typeLabel_of_invalid (t : String) (h : validOutputType t = false) :
    typeLabel t = "" := by
  simp only [validOutputType, Bool.or_eq_false_iff] at h
  simp [typeLabel, h.1.1, h.1.2, h.2]

/-- C3 (amended): an `output_type` outside the three enumerated values is
rejected by the backend before any pipeline stage runs — the (spec-modelled)
endpoint errors with UnsupportedFormat independently of the pipeline, so no
transcription is performed; the frontend, however, performs no such check:
`displayResult` still renders a result carrying the unknown value, with the
empty string as its type label. -/
theorem unknown_format_rejected_backend_rendered_frontend (t : String)
    (hinvalid : validOutputType t = false) :
    (∀ p, specBackendTranscribe t p = Except.error ("UnsupportedFormat")) ∧
    (∀ p₁ p₂, specBackendTranscribe t p₁ = specBackendTranscribe t p₂) ∧
    (∀ (d : SheetRecord) (dom : DomState), d.output_type = t →
      (displayResult d dom).resultHidden = false ∧
      (displayResult d dom).sheetContent = d.content ∧
      (displayResult d dom).resultType = "") := by
  refine ⟨fun p => by simp [specBackendTranscribe, hinvalid],
          fun p₁ p₂ => by simp [specBackendTranscribe, hinvalid],
          fun d dom hd => ⟨rfl, rfl, ?_⟩⟩
  show typeLabel d.output_type = ""
  rw [hd]
  exact typeLabel_of_invalid t hinvalid

/-- C3 witness: the amended behaviour at the concrete unknown value
`guitar_pro`. -/
theorem unknown_format_witness :
    specBackendTranscribe ("guitar_pro") (fun _ => c3BadRecord) =
      Except.error ("UnsupportedFormat") ∧
    (displayResult c3BadRecord initDom).resultType = "" := by
  have h := unknown_format_rejected_backend_rendered_frontend ("guitar_pro") (by decide)
  exact ⟨h.1 _, (h.2.2 c3BadRecord initDom rfl).2.2⟩

/-- C4: when the guard passes, `startTranscribe` appends exactly one request
whose `key_offset` is `0` when the key selector's value does not parse as an
integer, and the parsed integer itself — unmodified, with no range check —
when it does. -/
theorem startTranscribe_key_offset (raw keyVal ct : String) (outcome : FetchOutcome)
    (now : Nat) (iso : String) (s : AppState)
    (h1 : (jsTrim raw == "") = false)
    (h2 : (strContains (jsTrim raw) ("youtube.com") ||
           strContains (jsTrim raw) ("youtu.be")) = true) :
    ∃ req : TranscribeRequest,
      (startTranscribe raw keyVal ct outcome now iso s).requests = s.requests ++ [req] ∧
      req.youtube_url = jsTrim raw ∧ req.output_type = ct ∧
      (parseIntJS keyVal = none → req.key_offset = 0) ∧
      (∀ n, parseIntJS keyVal = some n → req.key_offset = n) := by
  refine ⟨⟨jsTrim raw, ct, parseIntOrZero keyVal⟩, ?_, rfl, rfl, ?_, ?_⟩
  · cases outcome with
    | ok d =>
      simp [startTranscribe, h1, h2, showDemoResult, displayOn, showToastOn]
    | httpErr detail =>
      simp [startTranscribe, h1, h2, showDemoResult, displayOn, showToastOn]
    | netErr message =>
      simp [startTranscribe, h1, h2, showDemoResult, displayOn, showToastOn]
  · intro hn
    simp [parseIntOrZero, hn]
  · intro n hn
    simp only [parseIntOrZero, hn]
    by_cases h0 : n = 0
    · simp [h0]
    · simp [h0]

/-- C4 witness: a key selector value of `100` (outside the recommended
[-6, +6] bound) is sent unmodified. -/
theorem startTranscribe_key_offset_witness :
    ∃ req : TranscribeRequest,
      (startTranscribe ("https://youtu.be/q") ("100") ("chord_sheet")
          (FetchOutcome.ok witnessRecord) 0 ("2026-01-01") initState).requests =
        initState.requests ++ [req] ∧
      req.youtube_url = jsTrim ("https://youtu.be/q") ∧ req.output_type = "chord_sheet" ∧
      (parseIntJS ("100") = none → req.key_offset = 0) ∧
      (∀ n, parseIntJS ("100") = some n → req.key_offset = n) :=
  startTranscribe_key_offset ("https://youtu.be/q") ("100") ("chord_sheet")
    (FetchOutcome.ok witnessRecord) 0 ("2026-01-01") initState (by decide) (by decide)

/-- A chord-sheet record with tempo 120 and key C whose melody line starts on
degree 5 — such records reach `displayResult` e.g. through decoded share
links. -/
def c5BadRecord : SheetRecord :=
  { id := none, youtube_url := none, title := none, output_type := "chord_sheet"
    content := "速度: ♩ = 120\n調號: C 大調\n\n [G]\n  5   3   1", tempo := some 120
    key := some ("C"), created_at := none, midi_note := none }

/-- C5 counterexample: a rendered result with tempo 120, key C and
`chord_sheet` whose content's melody line begins with digit 5 — the
melody-line clause of C5 does not hold of every such rendered result. -/
theorem displayResult_melody_not_always_degree_one :
    c5BadRecord.tempo = some 120 ∧ c5BadRecord.key = some ("C") ∧
    c5BadRecord.output_type = "chord_sheet" ∧
    (displayResult c5BadRecord initDom).resultHidden = false ∧
    (displayResult c5BadRecord initDom).sheetContent = c5BadRecord.content ∧
    ((lineAt (displayResult c5BadRecord initDom).sheetContent 4).dropWhile
        (fun c => c = ' ')).take 1 = ['5'] := by
  refine ⟨rfl, rfl, rfl, rfl, rfl, by decide⟩

/-- C5 (amended): every rendered result with tempo 120 and key C shows header
tempo `♩ = 120` and key label `C 大調` (the tonic name plus the major-mode
label); the melody-line clause holds of the chord-sheet content this
repository itself produces: the demo chord sheet's melody line begins with
digit 1 followed by a blank — no `·`/`,` octave mark. -/
theorem displayResult_header_and_demo_melody (d : SheetRecord) (dom : DomState)
    (ht : d.tempo = some 120) (hk : d.key = some ("C")) :
    (displayResult d dom).resultTempo = "♩ = 120" ∧
    (displayResult d dom).resultKey = "C 大調" ∧
    ((lineAt demoChordSheet 4).dropWhile (fun c => c = ' ')).take 2 = ['1', ' '] := by
  refine ⟨?_, ?_, by decide⟩
  · show "♩ = " ++ natToStr (jsOrNat d.tempo 120) = "♩ = 120"
    rw [ht]
    decide
  · show jsOrStr d.key ("C") ++ " 大調" = "C 大調"
    rw [hk]
    decide

/-- C5 witness: the amended statement at a concrete record. -/
theorem displayResult_header_witness :
    (displayResult witnessRecord initDom).resultTempo = "♩ = 120" ∧
    (displayResult witnessRecord initDom).resultKey = "C 大調" ∧
    ((lineAt demoChordSheet 4).dropWhile (fun c => c = ' ')).take 2 = ['1', ' '] :=
  displayResult_header_and_demo_melody witnessRecord initDom rfl rfl

/-- C6: rendering is deterministic — the displayed texts written by
`displayResult` are a function of the result data alone (independent of
whatever the DOM held before), and the demo fallback's content depends only on
the selected type, not on the clock reads that differ between invocations. -/
theorem rendering_deterministic :
    (∀ (d : SheetRecord) (dom₁ dom₂ : DomState),
      (displayResult d dom₁).sheetContent = (displayResult d dom₂).sheetContent ∧
      (displayResult d dom₁).resultTempo = (displayResult d dom₂).resultTempo ∧
      (displayResult d dom₁).resultKey = (displayResult d dom₂).resultKey ∧
      (displayResult d dom₁).resultType = (displayResult d dom₂).resultType ∧
      (displayResult d dom₁).resultTitle = (displayResult d dom₂).resultTitle) ∧
    (∀ (url ct : String) (now₁ now₂ : Nat) (iso₁ iso₂ : String),
      (demoData url ct now₁ iso₁).content = (demoData url ct now₂ iso₂).content) :=
  ⟨fun _ _ _ => ⟨rfl, rfl, rfl, rfl, rfl⟩, fun _ _ _ _ _ _ => rfl⟩

/-- C7: `displayResult` only reads the result record — after the call every
field of the record is unchanged. -/
theorem displayResult_record_unchanged (d : SheetRecord) (dom : DomState) :
    (displayResultProc d dom).1.title = d.title ∧
    (displayResultProc d dom).1.tempo = d.tempo ∧
    (displayResultProc d dom).1.key = d.key ∧
    (displayResultProc d dom).1.output_type = d.output_type ∧
    (displayResultProc d dom).1.content = d.content ∧
    (displayResultProc d dom).1.midi_note = d.midi_note ∧
    (displayResultProc d dom).1 = d :=
  ⟨rfl, rfl, rfl, rfl, rfl, rfl, rfl⟩

/-- C9: after `saveToLocalHistory` the stored list has the new record first,
holds at most 50 records, and a full prior list of 50 loses its oldest entry. -/
theorem saveToLocalHistory_invariant (r : SheetRecord) (prior : List SheetRecord) :
    (saveToLocalHistory r prior).head? = some r ∧
    (saveToLocalHistory r prior).length ≤ 50 ∧
    (prior.length = 50 → saveToLocalHistory r prior = r :: prior.dropLast) := by
  unfold saveToLocalHistory
  by_cases h : 50 < (r :: prior).length
  · simp only [h, if_pos]
    refine ⟨?_, ?_, ?_⟩
    · rw [show (50 : Nat) = 49 + 1 from rfl, List.take_succ_cons]
      rfl
    · simp [List.length_take]
    · intro h50
      rw [show (50 : Nat) = 49 + 1 from rfl, List.take_succ_cons,
        List.dropLast_eq_take, h50]
  · simp only [h, if_neg, not_false_iff]
    simp only [List.length_cons] at h
    refine ⟨rfl, by simpa using h, fun h50 => by omega⟩

/-- C9 witness: pushing onto a full history of 50 drops the oldest record. -/
theorem saveToLocalHistory_witness :
    saveToLocalHistory c3BadRecord (List.replicate 50 witnessRecord) =
      c3BadRecord :: (List.replicate 50 witnessRecord).dropLast ∧
    (saveToLocalHistory c3BadRecord (List.replicate 50 witnessRecord)).length ≤ 50 := by
  have h := saveToLocalHistory_invariant c3BadRecord (List.replicate 50 witnessRecord)
  exact ⟨h.2.2 (by simp), h.2.1⟩

/-- C10: when the input URL trims to empty or mentions neither `youtube.com`
nor `youtu.be`, `startTranscribe` only appends one toast — the DOM (and so
the displayed result), `currentResult`, history and the request log are all
unchanged, and no request is sent. -/
theorem startTranscribe_guard (raw keyVal ct : String) (outcome : FetchOutcome)
    (now : Nat) (iso : String) (s : AppState)
    (h : jsTrim raw = "" ∨
      (strContains (jsTrim raw) ("youtube.com") = false ∧
       strContains (jsTrim raw) ("youtu.be") = false)) :
    ∃ m, (m = "請輸入 YouTube 連結" ∨ m = "請輸入有效的 YouTube 連結") ∧
      startTranscribe raw keyVal ct outcome now iso s =
        { s with toasts := s.toasts ++ [m] } := by
  by_cases he : jsTrim raw = ""
  · refine ⟨"請輸入 YouTube 連結", Or.inl rfl, ?_⟩
    simp [startTranscribe, he, showToastOn]
  · rcases h with h | h
    · exact absurd h he
    · refine ⟨"請輸入有效的 YouTube 連結", Or.inr rfl, ?_⟩
      have he' : (jsTrim raw == "") = false := by simpa using he
      simp [startTranscribe, he', h.1, h.2, showToastOn]

/-- C10 witness: a non-YouTube URL is rejected with a toast and an otherwise
unchanged state. -/
theorem startTranscribe_guard_witness :
    ∃ m, (m = "請輸入 YouTube 連結" ∨ m = "請輸入有效的 YouTube 連結") ∧
      startTranscribe ("https://vimeo.com/123") ("0") ("chord_sheet")
          (FetchOutcome.ok witnessRecord) 0 ("2026-01-01") initState =
        { initState with toasts := initState.toasts ++ [m] } :=
  startTranscribe_guard ("https://vimeo.com/123") ("0") ("chord_sheet")
    (FetchOutcome.ok witnessRecord) 0 ("2026-01-01") initState
    (Or.inr (by refine ⟨by decide, by decide⟩))

end MusicTabFinder
